import Mathlib

/-!
Verification development for the XPort minimal bootstrap loader
(`app/src/main/cpp/xport-bootstrap.c`).

The C file is a one-shot installer: it checks whether a fixed set of key
files exists, probes the CPU architecture, scaffolds a fixed directory
tree, materializes a bundled zip payload, normalizes binary permissions,
builds a busybox symlink farm and emits two static configuration files.

Shallow embedding conventions:

* A filesystem path is a list of components (`List String`); the paths in
  the program are absolute, the leading slash of the C strings corresponds
  to the empty-list root, which is always a directory.
* The filesystem is a finite association list from paths to entries
  (`FS`). An entry is a directory (with mode), a regular file (with mode
  and content) or a symbolic link (with its target).  Symlink targets in
  this program are always plain sibling names (the C code only ever calls
  `symlink("busybox", ".../bin/<name>")`), so a link target is modelled as
  a single component resolved against the link's parent directory.
* System calls are modelled as pure functions on `FS`:
  - `mkdir` fails with `EEXIST` when the path already exists (whatever its
    kind, as in POSIX), and with `ENOTDIR`/`ENOENT` when the parent does
    not resolve to a directory; as the kernel resolves every non-final
    component, the parent is looked up through symbolic-link chains, while
    the new directory itself is registered under the literal path;
  - `access(F_OK)` follows symbolic links (bounded by the Linux
    `SYMLOOP_MAX`-style fuel of 40);
  - `unlinkOp` removes the entry at the path itself (it does not follow
    links) and fails on directories;
  - `symlinkOp` fails with `EEXIST` when the path is occupied (even by a
    dangling link) and needs the parent to be a directory;
  - `chmodOp` follows links and rewrites the mode of the resolved entry;
  - `fopenW` (also used for `open(O_CREAT|O_WRONLY|O_TRUNC)`) truncates
    the resolved regular file, or creates a fresh file when the path is
    absent and the parent is a directory.  Creation through a dangling
    symlink and out-of-space/short-write failures are not modelled.
* Machine `int` return values of the C helpers are `Int` (0 / -1).
* The JNI architecture probe (`get_android_architecture`) is a chain of
  compile-time `#if`s; it is modelled as the `arch` field of the ambient
  environment `Env`, with `"unknown"` as the unrecognized sentinel.
-/

set_option maxRecDepth 200000
set_option maxHeartbeats 1600000

inductive Entry where
  | dir (mode : Nat)
  | file (mode : Nat) (content : String)
  | symlink (target : String)
  deriving DecidableEq, Repr

abbrev FS := List (List String × Entry)

namespace FS

def lookup : FS → List String → Option Entry
  | [], _ => none
  | (q, e) :: rest, p => if q = p then some e else lookup rest p

/-- Remove every binding of path `p`. -/
def eraseKey : FS → List String → FS
  | [], _ => []
  | (q, e) :: rest, p => if q = p then eraseKey rest p else (q, e) :: eraseKey rest p

/-- Bind path `p` to entry `e`, removing any previous binding. -/
def set (fs : FS) (p : List String) (e : Entry) : FS :=
  (p, e) :: eraseKey fs p

theorem lookup_eraseKey_self (fs : FS) (p : List String) :
    lookup (eraseKey fs p) p = none := by
  induction fs with
  | nil => rfl
  | cons hd tl ih =>
      obtain ⟨q, e⟩ := hd
      by_cases h : q = p
      · simpa [eraseKey, h] using ih
      · simpa [eraseKey, lookup, h] using ih

theorem lookup_eraseKey_ne (fs : FS) (p q : List String) (h : q ≠ p) :
    lookup (eraseKey fs p) q = lookup fs q := by
  induction fs with
  | nil => rfl
  | cons hd tl ih =>
      obtain ⟨r, e⟩ := hd
      by_cases hr : r = p
      · subst hr
        simp [eraseKey, lookup, Ne.symm h, ih]
      · by_cases hq : r = q <;> simp [eraseKey, lookup, hr, hq, h, ih]

theorem lookup_set_self (fs : FS) (p : List String) (e : Entry) :
    lookup (set fs p e) p = some e := by
  simp [set, lookup]

theorem lookup_set_ne (fs : FS) (p q : List String) (e : Entry) (h : q ≠ p) :
    lookup (set fs p e) q = lookup fs q := by
  simp [set, lookup, Ne.symm h, lookup_eraseKey_ne fs p q h]

end FS

inductive Errno where
  | EEXIST
  | ENOENT
  | ENOTDIR
  deriving DecidableEq, Repr

/-- Resolve a path to the entry it denotes, following symbolic links
(targets are sibling names), with fuel bounding the link-chain length. -/
def resolvePath (fs : FS) : Nat → List String → Option (List String × Entry)
  | 0, _ => none
  | fuel + 1, p =>
      match FS.lookup fs p with
      | none => none
      | some (Entry.symlink t) => resolvePath fs fuel (p.dropLast ++ [t])
      | some e => some (p, e)

/-- Model of `access(path, F_OK)`: true when the path resolves to an
existing entry (symbolic links are followed). -/
def accessF (fs : FS) (p : List String) : Bool :=
  (resolvePath fs 40 p).isSome

/-- Model of `mkdir(path, mode)`.  The root (empty path) always exists.
The parent is resolved through symbolic-link chains, as the kernel follows
links in every non-final component; the created directory is registered
under the literal path. -/
def mkdirOp (fs : FS) (p : List String) (mode : Nat) : Except Errno FS :=
  if p = [] then Except.error Errno.EEXIST
  else
    match FS.lookup fs p with
    | some _ => Except.error Errno.EEXIST
    | none =>
        if p.dropLast = [] then Except.ok (FS.set fs p (Entry.dir mode))
        else
          match resolvePath fs 40 p.dropLast with
          | some (_, Entry.dir _) => Except.ok (FS.set fs p (Entry.dir mode))
          | some _ => Except.error Errno.ENOTDIR
          | none => Except.error Errno.ENOENT

/-- Model of `unlink(path)`: removes the entry at the path itself
(symbolic links are not followed); fails on directories and absent paths. -/
def unlinkOp (fs : FS) (p : List String) : Int × FS :=
  match FS.lookup fs p with
  | none => (-1, fs)
  | some (Entry.dir _) => (-1, fs)
  | some _ => (0, FS.eraseKey fs p)

/-- Model of `symlink(target, path)`: fails with `EEXIST` whenever the path
is occupied (even by a dangling link), otherwise needs the parent to be a
directory. -/
def symlinkOp (fs : FS) (target : String) (p : List String) : Int × FS :=
  match FS.lookup fs p with
  | some _ => (-1, fs)
  | none =>
      match FS.lookup fs p.dropLast with
      | some (Entry.dir _) => (0, FS.set fs p (Entry.symlink target))
      | _ => (-1, fs)

/-- Model of `chmod(path, mode)` (follows symbolic links). -/
def chmodOp (fs : FS) (p : List String) (mode : Nat) : Int × FS :=
  match resolvePath fs 40 p with
  | some (q, Entry.dir _) => (0, FS.set fs q (Entry.dir mode))
  | some (q, Entry.file _ c) => (0, FS.set fs q (Entry.file mode c))
  | _ => (-1, fs)

/-- Model of opening a path for writing with truncation (`fopen(path,"w")`
and `open(path, O_CREAT|O_WRONLY|O_TRUNC, mode)`) combined with writing
`content`: overwrites the resolved regular file, or creates a fresh file
when the path is absent and its parent is a directory. -/
def fopenW (fs : FS) (p : List String) (mode : Nat) (content : String) : Option FS :=
  match resolvePath fs 40 p with
  | some (q, Entry.file m _) => some (FS.set fs q (Entry.file m content))
  | some _ => none
  | none =>
      match FS.lookup fs p with
      | some _ => none
      | none =>
          match FS.lookup fs p.dropLast with
          | some (Entry.dir _) => some (FS.set fs p (Entry.file mode content))
          | _ => none

/-! ## Program constants (`#define`s and static tables of the C file) -/

/-- Constant `BOOTSTRAP_PREFIX_DIR` as a string (used when formatting file contents). -/
def BOOTSTRAP_PREFIX_DIR : String := "/data/data/com.xport.terminal/files/usr"

/-- Constant `BOOTSTRAP_HOME_DIR` as a string. -/
def BOOTSTRAP_HOME_DIR : String := "/data/data/com.xport.terminal/files/home"

/-- Constant `BOOTSTRAP_TMP_DIR` as a string. -/
def BOOTSTRAP_TMP_DIR : String := "/data/data/com.xport.terminal/files/tmp"

/-- Constant `BOOTSTRAP_PREFIX_DIR` as a component path. -/
def usrPath : List String := ["data", "data", "com.xport.terminal", "files", "usr"]

/-- Constant `BOOTSTRAP_HOME_DIR` as a component path. -/
def homePath : List String := ["data", "data", "com.xport.terminal", "files", "home"]

/-- Constant `BOOTSTRAP_TMP_DIR` as a component path. -/
def tmpPath : List String := ["data", "data", "com.xport.terminal", "files", "tmp"]

def binDir : List String := usrPath ++ ["bin"]

/-- Path of `BOOTSTRAP_PREFIX_DIR "/bin/<name>"`. -/
def binPath (name : String) : List String := binDir ++ [name]

def busyboxPath : List String := binPath ("busybox")

def sshHomeDirPath : List String := homePath ++ [".ssh"]

def varEmptyPath : List String := usrPath ++ ["var", "empty"]

def profilePath : List String := usrPath ++ ["etc", "profile"]

def sshConfigPath : List String := usrPath ++ ["etc", "ssh", "ssh_config"]

/-- The `directories[]` table of `setup_bootstrap_directories`. -/
def directoriesTable : List (List String) :=
  [usrPath,
   usrPath ++ ["bin"],
   usrPath ++ ["lib"],
   usrPath ++ ["etc"],
   usrPath ++ ["etc", "ssh"],
   usrPath ++ ["usr"],
   usrPath ++ ["usr", "share"],
   usrPath ++ ["var"],
   usrPath ++ ["var", "run"],
   usrPath ++ ["var", "empty"],
   homePath,
   homePath ++ [".ssh"],
   tmpPath]

/-- The `binaries[]` table of `setup_binary_permissions`. -/
def binariesTable : List (List String) :=
  [binPath ("busybox"), binPath ("ssh"), binPath ("ssh-keygen"),
   binPath ("sh"), binPath ("ash")]

/-- The `commands[]` table of `setup_busybox_symlinks`. -/
def commandsTable : List String :=
  ["sh", "ash", "ls", "cat", "cp", "mv", "rm", "mkdir", "chmod", "chown",
   "touch", "echo", "pwd", "test", "[", "which", "whoami", "id", "groups",
   "tar", "gzip", "gunzip", "unzip", "wget", "grep", "find", "sort",
   "head", "tail", "cut", "sed", "awk", "wc", "uniq", "basename", "dirname",
   "env", "printenv", "date", "sleep", "kill", "ps", "mount", "umount",
   "clear", "reset", "tty", "stty", "stat", "readlink", "realpath"]

/-- The `key_files[]` table of `is_bootstrap_installed`. -/
def keyFilesTable : List (List String) :=
  [binPath ("busybox"), binPath ("ssh"), binPath ("ssh-keygen"),
   usrPath ++ ["etc", "profile"]]

/-! ## The C functions -/

/-- The component loop of `create_directory_recursive`: `done` is the list
of components already handled, `rest` those still to handle.  A `mkdir`
failure with `errno != EEXIST` aborts with `-1` (the C loop frees the path
copy and returns `-1`); `EEXIST` is skipped. -/
def cdrGo (mode : Nat) : FS → List String → List String → Int × FS
  | fs, _, [] => (0, fs)
  | fs, done, c :: rest =>
      match mkdirOp fs (done ++ [c]) mode with
      | Except.ok fs1 => cdrGo mode fs1 (done ++ [c]) rest
      | Except.error e =>
          if e = Errno.EEXIST then cdrGo mode fs (done ++ [c]) rest
          else (-1, fs)

/-- Model of `create_directory_recursive(path, mode)`: create the directory and all
parents, treating `EEXIST` as success for every component. -/
def create_directory_recursive (fs : FS) (p : List String) (mode : Nat) : Int × FS :=
  cdrGo mode fs [] p

/-- Model of `set_file_permissions(path, mode)`: a logged `chmod`. -/
def set_file_permissions (fs : FS) (p : List String) (mode : Nat) : Int × FS :=
  chmodOp fs p mode

/-- The directory loop of `setup_bootstrap_directories`. -/
def sbdGo : FS → List (List String) → Int × FS
  | fs, [] => (0, fs)
  | fs, d :: ds =>
      let r := create_directory_recursive fs d 0o755
      if r.1 ≠ 0 then (-1, r.2) else sbdGo r.2 ds

/-- Model of `setup_bootstrap_directories()`: create the fixed tree with mode 0755,
then set `.ssh` to 0700 and `var/empty` to 0755 (chmod results ignored). -/
def setup_bootstrap_directories (fs : FS) : Int × FS :=
  let r := sbdGo fs directoriesTable
  if r.1 ≠ 0 then (-1, r.2)
  else
    let fs2 := (set_file_permissions r.2 sshHomeDirPath 0o700).2
    let fs3 := (set_file_permissions fs2 varEmptyPath 0o755).2
    (0, fs3)

/-- The binary loop of `setup_binary_permissions`: chmod 0755 each existing
binary; chmod failures are logged and ignored. -/
def sbpGo : FS → List (List String) → FS
  | fs, [] => fs
  | fs, b :: bs =>
      sbpGo (if accessF fs b then (set_file_permissions fs b 0o755).2 else fs) bs

/-- Model of `setup_binary_permissions()`: never fails. -/
def setup_binary_permissions (fs : FS) : Int × FS :=
  (0, sbpGo fs binariesTable)

/-- One iteration of the symlink loop of `setup_busybox_symlinks`: remove
the existing entry when `access(F_OK)` sees it, then create the symlink;
both the `unlink` result and a symlink-creation failure are ignored. -/
def symlinkOne (fs : FS) (name : String) : FS :=
  (symlinkOp (if accessF fs (binPath name) then (unlinkOp fs (binPath name)).2 else fs)
    ("busybox") (binPath name)).2

/-- The command loop of `setup_busybox_symlinks`. -/
def sbsGo : FS → List String → FS
  | fs, [] => fs
  | fs, c :: cs => sbsGo (symlinkOne fs c) cs

/-- Model of `setup_busybox_symlinks()`: hard error when the busybox binary is
absent, otherwise a best-effort loop that always returns 0. -/
def setup_busybox_symlinks (fs : FS) : Int × FS :=
  if accessF fs busyboxPath then (0, sbsGo fs commandsTable)
  else (-1, fs)

/-- The exact text `setup_configuration_files` writes into `etc/profile`. -/
def profileContent : String :=
  ("# XPort minimal shell profile\n")
  ++ ("export PATH=\"") ++ BOOTSTRAP_PREFIX_DIR ++ ("/bin:$PATH\"\n")
  ++ ("export HOME=\"") ++ BOOTSTRAP_HOME_DIR ++ ("\"\n")
  ++ ("export TMPDIR=\"") ++ BOOTSTRAP_TMP_DIR ++ ("\"\n")
  ++ ("export SHELL=\"") ++ BOOTSTRAP_PREFIX_DIR ++ ("/bin/sh\"\n")
  ++ ("export TERM=\"xterm-256color\"\n")
  ++ ("export PREFIX=\"") ++ BOOTSTRAP_PREFIX_DIR ++ ("\"\n")
  ++ ("export LANG=\"en_US.UTF-8\"\n")
  ++ ("export LC_ALL=\"en_US.UTF-8\"\n")
  ++ ("\n# Change to home directory\n")
  ++ ("cd \"$HOME\"\n")

/-- The exact text `setup_configuration_files` writes into
`etc/ssh/ssh_config`. -/
def sshConfigContent : String :=
  ("# XPort SSH client configuration\n")
  ++ ("Host *\n")
  ++ ("    Port 22\n")
  ++ ("    Protocol 2\n")
  ++ ("    ServerAliveInterval 30\n")
  ++ ("    ServerAliveCountMax 3\n")
  ++ ("    TCPKeepAlive yes\n")
  ++ ("    Compression yes\n")
  ++ ("    PubkeyAuthentication yes\n")
  ++ ("    PasswordAuthentication yes\n")
  ++ ("    HostbasedAuthentication no\n")
  ++ ("    GSSAPIAuthentication no\n")
  ++ ("    UserKnownHostsFile ~/.ssh/known_hosts\n")
  ++ ("    IdentityFile ~/.ssh/id_rsa\n")
  ++ ("    IdentityFile ~/.ssh/id_ed25519\n")

/-- Model of `setup_configuration_files()`: overwrite the two static files; a
failure to open either file is logged and ignored; always returns 0. -/
def writeOrSkip (fs : FS) (r : Option FS) : FS :=
  match r with
  | some f => f
  | none => fs

def setup_configuration_files (fs : FS) : Int × FS :=
  let fs1 := writeOrSkip fs (fopenW fs profilePath 0o644 profileContent)
  let fs2 := writeOrSkip fs1 (fopenW fs1 sshConfigPath 0o644 sshConfigContent)
  (0, fs2)

/-- The key-file loop of `is_bootstrap_installed`: returns early on the
first file whose `access(F_OK)` fails. -/
def ibiGo (fs : FS) : List (List String) → Bool
  | [] => true
  | f :: rest => if accessF fs f then ibiGo fs rest else false

/-- Model of `is_bootstrap_installed()`. -/
def is_bootstrap_installed (fs : FS) : Bool :=
  ibiGo fs keyFilesTable

/-! ## JNI environment and the install orchestrator -/

/-- Ambient inputs of `Java_com_xport_terminal_XPortBootstrap_installBootstrap`:
the compile-time architecture probe, whether `AAssetManager_fromJava`
yields a manager, the packaged assets (name to byte content) and the
behaviour of the external `unzip` decoder (zip byte content to the list of
extracted relative paths and entries). -/
structure Env where
  arch : String
  assetManagerOk : Bool
  assets : List (String × String)
  zipContents : List (String × List (List String × Entry))

/-- Mutable world threaded through the orchestrator: the filesystem plus a
trace of the asset names the installer attempted to open (used to state
that the fast path reads no asset). -/
structure St where
  fs : FS
  assetReads : List String

def strLookup : List (String × String) → String → Option String
  | [], _ => none
  | (k, v) :: rest, s => if k = s then some v else strLookup rest s

def zipLookup : List (String × List (List String × Entry)) → String →
    Option (List (List String × Entry))
  | [], _ => none
  | (k, v) :: rest, s => if k = s then some v else zipLookup rest s

/-- Model of `extract_asset_file(mgr, asset_path, dest_path)`: open the asset,
create the destination directory, create/truncate the destination file and
copy the bytes. -/
def extract_asset_file (env : Env) (st : St) (assetPath : String)
    (destPath : List String) : Int × St :=
  let st1 : St := { st with assetReads := st.assetReads ++ [assetPath] }
  match strLookup env.assets assetPath with
  | none => (-1, st1)
  | some content =>
      let r := create_directory_recursive st1.fs destPath.dropLast 0o755
      if r.1 ≠ 0 then (-1, { st1 with fs := r.2 })
      else
        match fopenW r.2 destPath 0o644 content with
        | none => (-1, { st1 with fs := r.2 })
        | some fs2 => (0, { st1 with fs := fs2 })

/-- Model of `extract_bootstrap_zip(zip_path, dest_dir)`: create the destination
directory, then run the external `unzip` on the scratch zip file; a
missing zip file, or a zip the decoder rejects, is a hard error. -/
def extract_bootstrap_zip (env : Env) (fs : FS) (zipPath destDir : List String) :
    Int × FS :=
  let r := create_directory_recursive fs destDir 0o755
  if r.1 ≠ 0 then (-1, r.2)
  else
    match FS.lookup r.2 zipPath with
    | some (Entry.file _ content) =>
        match zipLookup env.zipContents content with
        | some entries =>
            (0, entries.foldl (fun acc pe => FS.set acc (destDir ++ pe.1) pe.2) r.2)
        | none => (-1, r.2)
    | _ => (-1, r.2)

/-- Scratch path `%s/bootstrap.zip` under `BOOTSTRAP_TMP_DIR`. -/
def tmpZipPath : List String := tmpPath ++ ["bootstrap.zip"]

/-- Model of `Java_com_xport_terminal_XPortBootstrap_installBootstrap`: the full
install pipeline, mirroring the straight-line control flow of the C
function. -/
def installBootstrap (env : Env) (st : St) : Bool × St :=
  if is_bootstrap_installed st.fs then (true, st)
  else if env.arch = ("unknown") then (false, st)
  else if env.assetManagerOk = false then (false, st)
  else
    let r1 := setup_bootstrap_directories st.fs
    if r1.1 ≠ 0 then (false, { st with fs := r1.2 })
    else
      let zipName := ("xport-bootstrap-") ++ env.arch ++ (".zip")
      let r2 := extract_asset_file env { st with fs := r1.2 } zipName tmpZipPath
      if r2.1 ≠ 0 then (false, r2.2)
      else
        let r3 := extract_bootstrap_zip env r2.2.fs tmpZipPath usrPath
        if r3.1 ≠ 0 then (false, { r2.2 with fs := (unlinkOp r3.2 tmpZipPath).2 })
        else
          let fs4 := (unlinkOp r3.2 tmpZipPath).2
          let r4 := setup_binary_permissions fs4
          if r4.1 ≠ 0 then (false, { r2.2 with fs := r4.2 })
          else
            let r5 := setup_busybox_symlinks r4.2
            if r5.1 ≠ 0 then (false, { r2.2 with fs := r5.2 })
            else
              let r6 := setup_configuration_files r5.2
              if r6.1 ≠ 0 then (false, { r2.2 with fs := r6.2 })
              else (true, { r2.2 with fs := r6.2 })

/-- The pipeline prefix of `installBootstrap` that ends right after
`setup_busybox_symlinks` succeeds: `Except.error` carries the world at an
abort (or at the fast path / arch / asset-manager early exits, in which
case the outcome was decided before the symlink farm), `Except.ok` the
world after a successful symlink-farm construction.  Used to state that
nothing after the symlink farm can fail. -/
def installUpToSymlinks (env : Env) (st : St) : Except (Bool × St) St :=
  if is_bootstrap_installed st.fs then Except.error (true, st)
  else if env.arch = ("unknown") then Except.error (false, st)
  else if env.assetManagerOk = false then Except.error (false, st)
  else
    let r1 := setup_bootstrap_directories st.fs
    if r1.1 ≠ 0 then Except.error (false, { st with fs := r1.2 })
    else
      let zipName := ("xport-bootstrap-") ++ env.arch ++ (".zip")
      let r2 := extract_asset_file env { st with fs := r1.2 } zipName tmpZipPath
      if r2.1 ≠ 0 then Except.error (false, r2.2)
      else
        let r3 := extract_bootstrap_zip env r2.2.fs tmpZipPath usrPath
        if r3.1 ≠ 0 then
          Except.error (false, { r2.2 with fs := (unlinkOp r3.2 tmpZipPath).2 })
        else
          let fs4 := (unlinkOp r3.2 tmpZipPath).2
          let r4 := setup_binary_permissions fs4
          if r4.1 ≠ 0 then Except.error (false, { r2.2 with fs := r4.2 })
          else
            let r5 := setup_busybox_symlinks r4.2
            if r5.1 ≠ 0 then Except.error (false, { r2.2 with fs := r5.2 })
            else Except.ok { r2.2 with fs := r5.2 }

/-- Model of `Java_com_xport_terminal_XPortBootstrap_isBootstrapInstalled`. -/
def isBootstrapInstalledJNI (fs : FS) : Bool :=
  is_bootstrap_installed fs

/-! ## Decidable entry predicates used in claim statements -/

/-- The optional entry is a directory. -/
def isDirOpt : Option Entry → Bool
  | some (Entry.dir _) => true
  | _ => false

/-- The optional entry exists but is not a directory. -/
def isNonDirOpt : Option Entry → Bool
  | some (Entry.dir _) => false
  | none => false
  | some _ => true

/-- The path resolves (following symbolic links) to a directory. -/
def isDirAt (fs : FS) (p : List String) : Bool :=
  match resolvePath fs 40 p with
  | some (_, Entry.dir _) => true
  | _ => false

/-- The optional entry is a symbolic link. -/
def isSymlinkOpt : Option Entry → Bool
  | some (Entry.symlink _) => true
  | _ => false

/-- The path is absent or holds a regular file. -/
def isAbsentOrFileOpt : Option Entry → Bool
  | none => true
  | some (Entry.file _ _) => true
  | _ => false

/-- The permission mode recorded for the entry (none for symlinks and
absent paths). -/
def entryMode : Option Entry → Option Nat
  | some (Entry.dir m) => some m
  | some (Entry.file m _) => some m
  | _ => none

/-! ## Path and access helper lemmas -/

theorem dropLast_append_singleton (l : List String) (x : String) :
    (l ++ [x]).dropLast = l := by
  simp

theorem append_singleton_ne_nil (l : List String) (x : String) : l ++ [x] ≠ [] := by
  simp

theorem append_singleton_inj {l : List String} {x y : String}
    (h : l ++ [x] = l ++ [y]) : x = y := by
  have := List.append_cancel_left h
  simpa using this

theorem ne_of_length_ne {l r : List String} (h : l.length ≠ r.length) : l ≠ r := by
  intro he
  exact h (by rw [he])

theorem accessF_of_file {fs : FS} {p : List String} {m : Nat} {c : String}
    (h : FS.lookup fs p = some (Entry.file m c)) : accessF fs p = true := by
  simp [accessF, resolvePath, h]

theorem accessF_of_dir {fs : FS} {p : List String} {m : Nat}
    (h : FS.lookup fs p = some (Entry.dir m)) : accessF fs p = true := by
  simp [accessF, resolvePath, h]

theorem accessF_of_none {fs : FS} {p : List String}
    (h : FS.lookup fs p = none) : accessF fs p = false := by
  simp [accessF, resolvePath, h]

theorem accessF_symlink_dangling {fs : FS} {p : List String} {t : String}
    (h : FS.lookup fs p = some (Entry.symlink t))
    (ht : FS.lookup fs (p.dropLast ++ [t]) = none) : accessF fs p = false := by
  simp [accessF, resolvePath, h, ht]

theorem accessF_symlink_to_file {fs : FS} {p : List String} {t : String} {m : Nat}
    {c : String} (h : FS.lookup fs p = some (Entry.symlink t))
    (ht : FS.lookup fs (p.dropLast ++ [t]) = some (Entry.file m c)) :
    accessF fs p = true := by
  simp [accessF, resolvePath, h, ht]

/-- Resolution only consults bindings at paths of the same length as its
argument, because a symbolic-link step replaces the last component.  Hence
two filesystems agreeing on all bindings at that length resolve the path
alike. -/
theorem resolvePath_congr (fs fs2 : FS) :
    ∀ (n : Nat) (p : List String), p ≠ [] →
      (∀ r : List String, r.length = p.length → FS.lookup fs2 r = FS.lookup fs r) →
      resolvePath fs2 n p = resolvePath fs n p := by
  intro n
  induction n with
  | zero => intro p _ _; rfl
  | succ k ih =>
      intro p hp h
      have hl : FS.lookup fs2 p = FS.lookup fs p := h p rfl
      rw [resolvePath, resolvePath, hl]
      cases he : FS.lookup fs p with
      | none => rfl
      | some e =>
          cases e with
          | dir m => rfl
          | file m c => rfl
          | symlink t =>
              have h0 : 0 < p.length := List.length_pos.mpr hp
              have hlen : (p.dropLast ++ [t]).length = p.length := by
                simp only [List.length_append, List.length_dropLast,
                  List.length_cons, List.length_nil]
                omega
              exact ih (p.dropLast ++ [t]) (append_singleton_ne_nil _ t)
                (fun r hr => h r (by rw [hr, hlen]))

/-! ## Lemmas about `create_directory_recursive` -/

/-- Lemma: `mkdir` never removes or rewrites an existing binding. -/
theorem mkdirOp_preserve {fs fs1 : FS} {p : List String} {mode : Nat}
    (h : mkdirOp fs p mode = Except.ok fs1) {q : List String} {e : Entry}
    (hq : FS.lookup fs q = some e) : FS.lookup fs1 q = some e := by
  unfold mkdirOp at h
  by_cases hp : p = []
  · simp [hp] at h
  · rw [if_neg hp] at h
    cases hl : FS.lookup fs p with
    | some e0 => rw [hl] at h; exact absurd h (by simp)
    | none =>
        rw [hl] at h
        have hqp : q ≠ p := by
          intro he; rw [he, hl] at hq; exact absurd hq (by simp)
        by_cases hd : p.dropLast = []
        · rw [if_pos hd] at h
          have := h
          simp only [Except.ok.injEq] at this
          rw [← this, FS.lookup_set_ne fs p q _ hqp, hq]
        · rw [if_neg hd] at h
          cases hpar : resolvePath fs 40 p.dropLast with
          | none => rw [hpar] at h; exact absurd h (by simp)
          | some pe =>
              obtain ⟨rr, epar⟩ := pe
              rw [hpar] at h
              cases epar with
              | dir m =>
                  simp only [Except.ok.injEq] at h
                  rw [← h, FS.lookup_set_ne fs p q _ hqp, hq]
              | file m c => exact absurd h (by simp)
              | symlink t => exact absurd h (by simp)

/-- A successful `mkdir` binds its own path to a fresh directory. -/
theorem mkdirOp_self {fs fs1 : FS} {p : List String} {mode : Nat}
    (h : mkdirOp fs p mode = Except.ok fs1) :
    FS.lookup fs p = none ∧ FS.lookup fs1 p = some (Entry.dir mode) := by
  unfold mkdirOp at h
  by_cases hp : p = []
  · simp [hp] at h
  · rw [if_neg hp] at h
    cases hl : FS.lookup fs p with
    | some e0 => rw [hl] at h; exact absurd h (by simp)
    | none =>
        rw [hl] at h
        refine ⟨rfl, ?_⟩
        by_cases hd : p.dropLast = []
        · rw [if_pos hd] at h
          simp only [Except.ok.injEq] at h
          rw [← h, FS.lookup_set_self]
        · rw [if_neg hd] at h
          cases hpar : resolvePath fs 40 p.dropLast with
          | none => rw [hpar] at h; exact absurd h (by simp)
          | some pe =>
              obtain ⟨rr, epar⟩ := pe
              rw [hpar] at h
              cases epar with
              | dir m =>
                  simp only [Except.ok.injEq] at h
                  rw [← h, FS.lookup_set_self]
              | file m c => exact absurd h (by simp)
              | symlink t => exact absurd h (by simp)

/-- The loop of `create_directory_recursive` never removes or rewrites an
existing binding, whether it succeeds or aborts. -/
theorem cdrGo_preserve (mode : Nat) :
    ∀ (rest : List String) (fs : FS) (done : List String) {q : List String}
      {e : Entry}, FS.lookup fs q = some e →
      FS.lookup (cdrGo mode fs done rest).2 q = some e := by
  intro rest
  induction rest with
  | nil => intro fs done q e hq; simpa [cdrGo] using hq
  | cons c r ih =>
      intro fs done q e hq
      unfold cdrGo
      cases hm : mkdirOp fs (done ++ [c]) mode with
      | ok fs1 => exact ih fs1 (done ++ [c]) (mkdirOp_preserve hm hq)
      | error err =>
          by_cases he : err = Errno.EEXIST
          · simpa [he] using ih fs (done ++ [c]) hq
          · simpa [he] using hq

theorem create_directory_recursive_preserve {fs : FS} {p : List String} {mode : Nat}
    {q : List String} {e : Entry} (hq : FS.lookup fs q = some e) :
    FS.lookup (create_directory_recursive fs p mode).2 q = some e :=
  cdrGo_preserve mode p fs [] hq

/-- Any binding the loop adds is a directory with the requested mode. -/
theorem cdrGo_new (mode : Nat) :
    ∀ (rest : List String) (fs : FS) (done : List String) {q : List String},
      FS.lookup fs q = none →
      FS.lookup (cdrGo mode fs done rest).2 q = none ∨
      FS.lookup (cdrGo mode fs done rest).2 q = some (Entry.dir mode) := by
  intro rest
  induction rest with
  | nil => intro fs done q hq; simp [cdrGo, hq]
  | cons c r ih =>
      intro fs done q hq
      unfold cdrGo
      cases hm : mkdirOp fs (done ++ [c]) mode with
      | ok fs1 =>
          by_cases hqc : q = done ++ [c]
          · subst hqc
            exact Or.inr (cdrGo_preserve mode r fs1 (done ++ [c]) (mkdirOp_self hm).2)
          · have h1 : FS.lookup fs1 q = none := by
              unfold mkdirOp at hm
              by_cases hp : (done ++ [c]) = []
              · simp [hp] at hm
              · rw [if_neg hp] at hm
                cases hl : FS.lookup fs (done ++ [c]) with
                | some e0 => rw [hl] at hm; exact absurd hm (by simp)
                | none =>
                    rw [hl] at hm
                    by_cases hd : (done ++ [c]).dropLast = []
                    · rw [if_pos hd] at hm
                      simp only [Except.ok.injEq] at hm
                      rw [← hm, FS.lookup_set_ne _ _ _ _ hqc, hq]
                    · rw [if_neg hd] at hm
                      cases hpar : resolvePath fs 40 (done ++ [c]).dropLast with
                      | none => rw [hpar] at hm; exact absurd hm (by simp)
                      | some pe =>
                          obtain ⟨rr, epar⟩ := pe
                          rw [hpar] at hm
                          cases epar with
                          | dir m =>
                              simp only [Except.ok.injEq] at hm
                              rw [← hm, FS.lookup_set_ne _ _ _ _ hqc, hq]
                          | file m cc => exact absurd hm (by simp)
                          | symlink t => exact absurd hm (by simp)
            exact ih fs1 (done ++ [c]) h1
      | error err =>
          by_cases he : err = Errno.EEXIST
          · simpa [he] using ih fs (done ++ [c]) hq
          · simpa [he] using Or.inl hq

/-- When every strict prefix of the remaining components is already a
directory and the full path already exists (as anything), the loop only
sees `EEXIST` and succeeds without touching the filesystem. -/
theorem cdrGo_noop_of_existing (mode : Nat) :
    ∀ (rest : List String) (fs : FS) (done : List String),
      (∀ n, 0 < n → n < rest.length →
        isDirOpt (FS.lookup fs (done ++ rest.take n)) = true) →
      (rest ≠ [] → (FS.lookup fs (done ++ rest)).isSome) →
      cdrGo mode fs done rest = (0, fs) := by
  intro rest
  induction rest with
  | nil => intro fs done _ _; rfl
  | cons c r ih =>
      intro fs done hmid hfin
      have hex : (FS.lookup fs (done ++ c :: r)).isSome := hfin (by simp)
      have hcur : (FS.lookup fs (done ++ [c])).isSome := by
        cases r with
        | nil => exact hex
        | cons c2 r2 =>
            have h1 : (c :: c2 :: r2).take 1 = [c] := rfl
            have h2 := hmid 1 (by omega) (by simp only [List.length_cons]; omega)
            rw [h1] at h2
            cases hl : FS.lookup fs (done ++ [c]) with
            | none => rw [hl] at h2; simp [isDirOpt] at h2
            | some e => simp
      have hm : mkdirOp fs (done ++ [c]) mode = Except.error Errno.EEXIST := by
        unfold mkdirOp
        rw [if_neg (append_singleton_ne_nil done c)]
        cases hl : FS.lookup fs (done ++ [c]) with
        | none => rw [hl] at hcur; simp at hcur
        | some e => rfl
      unfold cdrGo
      rw [hm]
      simp only [if_pos rfl]
      refine ih fs (done ++ [c]) ?_ ?_
      · intro n hn hnr
        have ht : (c :: r).take (n + 1) = c :: r.take n := rfl
        have h2 := hmid (n + 1) (by omega) (by simp only [List.length_cons]; omega)
        rw [ht, List.append_cons] at h2
        exact h2
      · intro hr
        have h3 : done ++ c :: r = done ++ [c] ++ r := List.append_cons done c r
        rw [h3] at hex
        exact hex

/-- A successful `mkdir` changes no binding other than its own path. -/
theorem mkdirOp_lookup_ne {fs fs1 : FS} {p : List String} {mode : Nat}
    (h : mkdirOp fs p mode = Except.ok fs1) {q : List String} (hq : q ≠ p) :
    FS.lookup fs1 q = FS.lookup fs q := by
  unfold mkdirOp at h
  by_cases hp : p = []
  · simp [hp] at h
  · rw [if_neg hp] at h
    cases hl : FS.lookup fs p with
    | some e0 => rw [hl] at h; exact absurd h (by simp)
    | none =>
        rw [hl] at h
        by_cases hd : p.dropLast = []
        · rw [if_pos hd] at h
          simp only [Except.ok.injEq] at h
          rw [← h, FS.lookup_set_ne _ _ _ _ hq]
        · rw [if_neg hd] at h
          cases hpar : resolvePath fs 40 p.dropLast with
          | none => rw [hpar] at h; exact absurd h (by simp)
          | some pe =>
              obtain ⟨rr, epar⟩ := pe
              rw [hpar] at h
              cases epar with
              | dir m =>
                  simp only [Except.ok.injEq] at h
                  rw [← h, FS.lookup_set_ne _ _ _ _ hq]
              | file m c => exact absurd h (by simp)
              | symlink t => exact absurd h (by simp)

/-- When some already-handled component `done ++ r1` is occupied but does
not resolve to a directory and the next component is absent, the loop
aborts with `-1`: either an earlier `mkdir` already failed hard, or the
`mkdir` of the component right below the collision fails with `ENOENT` or
`ENOTDIR`. -/
theorem cdrGo_error_of_blocked (mode : Nat) :
    ∀ (r1 : List String) (fs : FS) (done : List String) (x : String)
      (r2 : List String), done ++ r1 ≠ [] →
      (FS.lookup fs (done ++ r1)).isSome = true →
      isDirAt fs (done ++ r1) = false →
      FS.lookup fs ((done ++ r1) ++ [x]) = none →
      (cdrGo mode fs done (r1 ++ x :: r2)).1 = -1 := by
  intro r1
  induction r1 with
  | nil =>
      intro fs done x r2 hne hocc hdir habs
      simp only [List.append_nil] at hne hocc hdir habs
      simp only [List.nil_append]
      unfold cdrGo
      cases hr : resolvePath fs 40 done with
      | none =>
          have hm : mkdirOp fs (done ++ [x]) mode = Except.error Errno.ENOENT := by
            simp only [mkdirOp, if_neg (append_singleton_ne_nil done x), habs,
              dropLast_append_singleton, if_neg hne, hr]
          rw [hm]
          rfl
      | some pe =>
          obtain ⟨rr, e⟩ := pe
          cases e with
          | dir m =>
              exfalso
              unfold isDirAt at hdir
              rw [hr] at hdir
              simp at hdir
          | file m c =>
              have hm : mkdirOp fs (done ++ [x]) mode = Except.error Errno.ENOTDIR := by
                simp only [mkdirOp, if_neg (append_singleton_ne_nil done x), habs,
                  dropLast_append_singleton, if_neg hne, hr]
              rw [hm]
              rfl
          | symlink t =>
              have hm : mkdirOp fs (done ++ [x]) mode = Except.error Errno.ENOTDIR := by
                simp only [mkdirOp, if_neg (append_singleton_ne_nil done x), habs,
                  dropLast_append_singleton, if_neg hne, hr]
              rw [hm]
              rfl
  | cons c r1x ih =>
      intro fs done x r2 hne hocc hdir habs
      rw [List.cons_append]
      unfold cdrGo
      cases hm : mkdirOp fs (done ++ [c]) mode with
      | ok fs1 =>
          obtain ⟨hnone, _⟩ := mkdirOp_self hm
          have hqe : done ++ c :: r1x = (done ++ [c]) ++ r1x := List.append_cons done c r1x
          cases hr : r1x with
          | nil =>
              subst hr
              rw [hnone] at hocc
              exact absurd hocc (by simp)
          | cons c2 r2x =>
              subst hr
              have hlen : done ++ c :: c2 :: r2x ≠ done ++ [c] := by
                intro he; have h4 := congrArg List.length he; simp at h4
              have hlen2 : (done ++ c :: c2 :: r2x) ++ [x] ≠ done ++ [c] := by
                intro he; have h4 := congrArg List.length he; simp at h4
              apply ih fs1 (done ++ [c]) x r2
              · simp
              · rw [← hqe, mkdirOp_lookup_ne hm hlen]; exact hocc
              · rw [← hqe]
                have hres : resolvePath fs1 40 (done ++ c :: c2 :: r2x) =
                    resolvePath fs 40 (done ++ c :: c2 :: r2x) := by
                  refine resolvePath_congr fs fs1 40 (done ++ c :: c2 :: r2x)
                    (by simp) ?_
                  intro r hrlen
                  refine mkdirOp_lookup_ne hm ?_
                  intro he
                  rw [he] at hrlen
                  simp only [List.length_append, List.length_cons,
                    List.length_nil] at hrlen
                  omega
                unfold isDirAt
                rw [hres]
                unfold isDirAt at hdir
                exact hdir
              · rw [← hqe, mkdirOp_lookup_ne hm hlen2]; exact habs
      | error err =>
          have hqe : done ++ c :: r1x = (done ++ [c]) ++ r1x := List.append_cons done c r1x
          cases err with
          | EEXIST =>
              exact ih fs (done ++ [c]) x r2 (by simp)
                (by rw [← hqe]; exact hocc) (by rw [← hqe]; exact hdir)
                (by rw [← hqe]; exact habs)
          | ENOENT => rfl
          | ENOTDIR => rfl

/-! ## Claim C1 -/

/-- Concrete states used to instantiate the C1 statements. -/
def fsDirA : FS := [(["a"], Entry.dir 0o755)]

def fsFileA : FS := [(["a"], Entry.file 0o644 (""))]

def stBlocked : St := { fs := [(["data"], Entry.file 0o644 (""))], assetReads := [] }

def envArm : Env :=
  { arch := ("arm64-v8a"), assetManagerOk := true, assets := [], zipContents := [] }

/-- Claim C1, amended.  For every path and mode, `create_directory_recursive`
(1) succeeds and leaves the filesystem untouched when every component
already exists as a directory; (2) returns the hard error `-1` when a
strict (non-final) component is occupied by an entry that does not resolve
to a directory — a regular file, or a symbolic-link chain that does not
reach a directory — and nothing deeper is present, because the `mkdir` of
the next component then fails with an errno other than `EEXIST`; and (3) a
nonzero result of directory scaffolding aborts `installBootstrap` with
`JNI_FALSE`.  (The claim's original "any path component" is amended twice:
a non-directory at the final component makes its `mkdir` fail with
`EEXIST`, which the code treats as success — see the counterexample — and
a strict component occupied by a symbolic link to a directory is followed
by `mkdir`, so creation proceeds there.) -/
theorem claim_C1_create_directory_recursive :
    (∀ (fs : FS) (p : List String) (mode : Nat),
      (∀ n ∈ List.range (p.length + 1), 0 < n →
        isDirOpt (FS.lookup fs (p.take n)) = true) →
      create_directory_recursive fs p mode = (0, fs)) ∧
    (∀ (fs : FS) (mode : Nat) (q : List String) (x : String) (r2 : List String),
      q ≠ [] → (FS.lookup fs q).isSome = true → isDirAt fs q = false →
      FS.lookup fs (q ++ [x]) = none →
      (create_directory_recursive fs (q ++ x :: r2) mode).1 = -1) ∧
    (∀ (env : Env) (st : St),
      is_bootstrap_installed st.fs = false →
      env.arch ≠ ("unknown") → env.assetManagerOk = true →
      (setup_bootstrap_directories st.fs).1 ≠ 0 →
      installBootstrap env st =
        (false, { st with fs := (setup_bootstrap_directories st.fs).2 })) := by
  refine ⟨?_, ?_, ?_⟩
  · intro fs p mode h
    refine cdrGo_noop_of_existing mode p fs [] ?_ ?_
    · intro n hn hlt
      rw [List.nil_append]
      exact h n (List.mem_range.mpr (by omega)) hn
    · intro hp
      have h0 : 0 < p.length := List.length_pos.mpr hp
      have h1 := h p.length (List.mem_range.mpr (by omega)) h0
      rw [List.take_length] at h1
      rw [List.nil_append]
      cases hl : FS.lookup fs p with
      | none => rw [hl] at h1; simp [isDirOpt] at h1
      | some e => simp
  · intro fs mode q x r2 hq hocc hdir habs
    have := cdrGo_error_of_blocked mode q fs [] x r2
      (by simpa using hq) (by simpa using hocc) (by simpa using hdir)
      (by simpa using habs)
    simpa [create_directory_recursive] using this
  · intro env st h1 h2 h3 h4
    simp only [installBootstrap, h1, h3, Bool.false_eq_true, Bool.true_eq_false,
      if_false, if_neg h2, if_pos h4]

/-- Witness for Claim C1: the three parts instantiated at concrete states:
an existing one-directory path, a file blocking the strict first component
of `a/b`, and an install whose scaffolding fails on a file at `/data`. -/
theorem claim_C1_witness :
    create_directory_recursive fsDirA ["a"] 0o755 = (0, fsDirA) ∧
    (create_directory_recursive fsFileA (["a"] ++ ("b") :: []) 0o755).1 = -1 ∧
    installBootstrap envArm stBlocked =
      (false, { stBlocked with fs := (setup_bootstrap_directories stBlocked.fs).2 }) :=
  ⟨claim_C1_create_directory_recursive.1 fsDirA ["a"] 0o755 (by decide),
   claim_C1_create_directory_recursive.2.1 fsFileA 0o755 ["a"] ("b") []
     (by decide) (by decide) (by decide) (by decide),
   claim_C1_create_directory_recursive.2.2 envArm stBlocked
     (by decide) (by decide) (by decide) (by decide)⟩

/-- Counterexample to Claim C1 as stated: a regular file occupies the
(final) path component `a`, yet `create_directory_recursive` returns 0 and
changes nothing, because the final `mkdir` fails with `EEXIST`, which the
code does not distinguish from "directory already exists". -/
theorem claim_C1_counterexample :
    isNonDirOpt (FS.lookup fsFileA ["a"]) = true ∧
    create_directory_recursive fsFileA ["a"] 0o755 = (0, fsFileA) := by
  decide

/-- Concrete state with `a` a symbolic link to the directory `b`. -/
def fsLinkParent : FS :=
  [(["a"], Entry.symlink ("b")), (["b"], Entry.dir 0o755)]

/-- A symbolic link to a directory occupying the strict component `a` is
followed when `mkdir` resolves the non-final components of `a/x`, so the
scaffolding of `a/x` succeeds (rather than aborting with `-1`). -/
theorem create_directory_recursive_symlink_parent :
    (create_directory_recursive fsLinkParent ["a", "x"] 0o755).1 = 0 := by
  decide

/-! ## Lemmas about `is_bootstrap_installed` -/

theorem ibiGo_eq_true_iff (fs : FS) :
    ∀ l : List (List String), ibiGo fs l = true ↔ ∀ f ∈ l, accessF fs f = true := by
  intro l
  induction l with
  | nil => simp [ibiGo]
  | cons f rest ih =>
      constructor
      · intro h g hg
        cases ha : accessF fs f with
        | false => rw [ibiGo, ha] at h; simp at h
        | true =>
            rcases List.mem_cons.mp hg with hgf | hgr
            · rw [hgf]; exact ha
            · rw [ibiGo, ha] at h
              simp only [if_pos rfl] at h
              exact (ih.mp h) g hgr
      · intro h
        have ha : accessF fs f = true := h f (by simp)
        rw [ibiGo, ha]
        simp only [if_pos rfl]
        exact ih.mpr (fun g hg => h g (by simp [hg]))

theorem ibiGo_congr (fs fs2 : FS) :
    ∀ l : List (List String), (∀ f ∈ l, accessF fs f = accessF fs2 f) →
      ibiGo fs l = ibiGo fs2 l := by
  intro l
  induction l with
  | nil => intro _; rfl
  | cons f rest ih =>
      intro h
      have hf : accessF fs f = accessF fs2 f := h f (by simp)
      rw [ibiGo, ibiGo, hf, ih (fun g hg => h g (by simp [hg]))]

/-! ## Claim C7 -/

/-- Claim C7: `is_bootstrap_installed` reports installed iff every entry of
the fixed key-file list (`bin/busybox`, `bin/ssh`, `bin/ssh-keygen`,
`etc/profile`) passes the `access(F_OK)` existence check; it depends only
on the access results of those four paths (so not on contents, sizes or
permission bits), and the JNI status query returns exactly its result.
In the embedding the function is a pure predicate on the filesystem, which
expresses that it performs no filesystem mutation; early return at the
first missing file is the `ibiGo` recursion of the embedding. -/
theorem claim_C7_is_bootstrap_installed (fs fs2 : FS) :
    (is_bootstrap_installed fs = true ↔ ∀ f ∈ keyFilesTable, accessF fs f = true) ∧
    ((∀ f ∈ keyFilesTable, accessF fs f = accessF fs2 f) →
      is_bootstrap_installed fs = is_bootstrap_installed fs2) ∧
    isBootstrapInstalledJNI fs = is_bootstrap_installed fs := by
  refine ⟨ibiGo_eq_true_iff fs keyFilesTable, ?_, rfl⟩
  intro h
  exact ibiGo_congr fs fs2 keyFilesTable h

/-- Two installed filesystems that differ in the contents and permission
bits of the key files: the installed-check cannot tell them apart. -/
def fsKeysA : FS :=
  [(binPath ("busybox"), Entry.file 0o755 ("multicall")),
   (binPath ("ssh"), Entry.file 0o755 ("sshbin")),
   (binPath ("ssh-keygen"), Entry.file 0o755 ("keygenbin")),
   (usrPath ++ ["etc", "profile"], Entry.file 0o644 ("profiletext"))]

def fsKeysB : FS :=
  [(binPath ("busybox"), Entry.file 0o600 ("changed")),
   (binPath ("ssh"), Entry.file 0o600 ("other")),
   (binPath ("ssh-keygen"), Entry.file 0o600 ("bits")),
   (usrPath ++ ["etc", "profile"], Entry.file 0o600 ("rewritten"))]

/-- Witness for Claim C7: two filesystems with identical key-file existence
but different contents and modes receive the same verdict. -/
theorem claim_C7_witness :
    is_bootstrap_installed fsKeysA = is_bootstrap_installed fsKeysB :=
  (claim_C7_is_bootstrap_installed fsKeysA fsKeysB).2.1 (by decide)

/-! ## Claim C2 -/

/-- Claim C2: when all four key files exist, `installBootstrap` returns
`JNI_TRUE` immediately and the returned world is the input world: the
filesystem is untouched (no directory creation, write, chmod, unlink or
symlink) and the asset-read trace is unchanged (no asset is opened). -/
theorem claim_C2_fast_path (env : Env) (st : St)
    (h : ∀ f ∈ keyFilesTable, accessF st.fs f = true) :
    installBootstrap env st = (true, st) := by
  have hi : is_bootstrap_installed st.fs = true :=
    (ibiGo_eq_true_iff st.fs keyFilesTable).mpr h
  unfold installBootstrap
  rw [hi]
  simp

/-- Witness for Claim C2: a concrete installed filesystem takes the fast
path. -/
theorem claim_C2_witness :
    installBootstrap envArm { fs := fsKeysA, assetReads := [] } =
      (true, { fs := fsKeysA, assetReads := [] }) :=
  claim_C2_fast_path envArm { fs := fsKeysA, assetReads := [] } (by decide)

/-! ## Claim C3 -/

/-- Claim C3: when the architecture probe yields the sentinel `"unknown"`
and the installation is not already complete, `installBootstrap` returns
`JNI_FALSE` with the world unchanged — before any directory is created or
any other filesystem mutation occurs. -/
theorem claim_C3_unknown_arch (env : Env) (st : St)
    (harch : env.arch = ("unknown"))
    (hni : is_bootstrap_installed st.fs = false) :
    installBootstrap env st = (false, st) := by
  unfold installBootstrap
  rw [hni, harch]
  simp

def envUnknown : Env :=
  { arch := ("unknown"), assetManagerOk := true, assets := [], zipContents := [] }

/-- Witness for Claim C3: the empty filesystem with the unrecognized
architecture sentinel. -/
theorem claim_C3_witness :
    installBootstrap envUnknown { fs := [], assetReads := [] } =
      (false, { fs := [], assetReads := [] }) :=
  claim_C3_unknown_arch envUnknown { fs := [], assetReads := [] } rfl (by decide)

/-! ## Claim C4 -/

/-- Claim C4: when the multi-call binary `bin/busybox` is absent (its
existence check fails), `setup_busybox_symlinks` returns `-1` and the
filesystem is unchanged — zero symlinks are created. -/
theorem claim_C4_busybox_missing (fs : FS)
    (h : accessF fs busyboxPath = false) :
    setup_busybox_symlinks fs = (-1, fs) := by
  unfold setup_busybox_symlinks
  rw [h]
  simp

/-- Witness for Claim C4: the empty filesystem. -/
theorem claim_C4_witness : setup_busybox_symlinks [] = (-1, []) :=
  claim_C4_busybox_missing [] (by decide)

/-! ## Lemmas about `setup_bootstrap_directories` (Claim C6) -/

theorem chmodOp_dir {fs : FS} {p : List String} {m : Nat} (mode : Nat)
    (h : FS.lookup fs p = some (Entry.dir m)) :
    chmodOp fs p mode = (0, FS.set fs p (Entry.dir mode)) := by
  unfold chmodOp
  rw [show resolvePath fs 40 p = some (p, Entry.dir m) by rw [resolvePath, h]]

theorem chmodOp_file {fs : FS} {p : List String} {m : Nat} {c : String} (mode : Nat)
    (h : FS.lookup fs p = some (Entry.file m c)) :
    chmodOp fs p mode = (0, FS.set fs p (Entry.file mode c)) := by
  unfold chmodOp
  rw [show resolvePath fs 40 p = some (p, Entry.file m c) by rw [resolvePath, h]]

/-- An `EEXIST` failure of `mkdir` on a nonempty path means the path was
already bound. -/
theorem mkdirOp_eexist_isSome {fs : FS} {p : List String} {mode : Nat}
    (h : mkdirOp fs p mode = Except.error Errno.EEXIST) (hp : p ≠ []) :
    (FS.lookup fs p).isSome = true := by
  unfold mkdirOp at h
  rw [if_neg hp] at h
  cases hl : FS.lookup fs p with
  | some e => simp
  | none =>
      rw [hl] at h
      by_cases hd : p.dropLast = []
      · rw [if_pos hd] at h; exact absurd h (by simp)
      · rw [if_neg hd] at h
        cases hpar : resolvePath fs 40 p.dropLast with
        | none => rw [hpar] at h; simp at h
        | some pe =>
            obtain ⟨rr, epar⟩ := pe
            rw [hpar] at h
            cases epar with
            | dir m => simp at h
            | file m c => simp at h
            | symlink t => simp at h

/-- A successful run of the loop on a path that was absent ends with the
full path bound to a fresh directory with the requested mode. -/
theorem cdrGo_ok_new_target (mode : Nat) :
    ∀ (rest : List String) (fs : FS) (done : List String) (fs2 : FS),
      cdrGo mode fs done rest = (0, fs2) → rest ≠ [] →
      FS.lookup fs (done ++ rest) = none →
      FS.lookup fs2 (done ++ rest) = some (Entry.dir mode) := by
  intro rest
  induction rest with
  | nil => intro fs done fs2 _ hne _; exact absurd rfl hne
  | cons c r ih =>
      intro fs done fs2 h _ habs
      rw [cdrGo] at h
      cases hm : mkdirOp fs (done ++ [c]) mode with
      | ok fs1 =>
          rw [hm] at h
          cases hr : r with
          | nil =>
              subst hr
              have hfs2 : fs1 = fs2 := by
                rw [cdrGo] at h
                exact congrArg Prod.snd h
              rw [← hfs2]
              exact (mkdirOp_self hm).2
          | cons c2 r2 =>
              subst hr
              have hqe : done ++ c :: c2 :: r2 = (done ++ [c]) ++ c2 :: r2 :=
                List.append_cons done c (c2 :: r2)
              have hne2 : done ++ c :: c2 :: r2 ≠ done ++ [c] := by
                intro he; have h4 := congrArg List.length he; simp at h4
              rw [hqe]
              refine ih fs1 (done ++ [c]) fs2 h (by simp) ?_
              rw [← hqe, mkdirOp_lookup_ne hm hne2]
              exact habs
      | error err =>
          rw [hm] at h
          cases err with
          | EEXIST =>
              have h2 : cdrGo mode fs (done ++ [c]) r = (0, fs2) := h
              cases hr : r with
              | nil =>
                  subst hr
                  have h3 := mkdirOp_eexist_isSome hm (append_singleton_ne_nil done c)
                  rw [habs] at h3
                  simp at h3
              | cons c2 r2 =>
                  subst hr
                  have hqe : done ++ c :: c2 :: r2 = (done ++ [c]) ++ c2 :: r2 :=
                    List.append_cons done c (c2 :: r2)
                  rw [hqe]
                  refine ih fs (done ++ [c]) fs2 h2 (by simp) ?_
                  rw [← hqe]
                  exact habs
          | ENOENT =>
              have h2 : ((-1 : Int), fs) = ((0 : Int), fs2) := h
              have h3 : (-1 : Int) = 0 := congrArg Prod.fst h2
              exact absurd h3 (by decide)
          | ENOTDIR =>
              have h2 : ((-1 : Int), fs) = ((0 : Int), fs2) := h
              have h3 : (-1 : Int) = 0 := congrArg Prod.fst h2
              exact absurd h3 (by decide)

/-- Unfolding equation for the directory loop. -/
theorem sbdGo_cons (fs : FS) (d : List String) (ds : List (List String)) :
    sbdGo fs (d :: ds) =
      if (create_directory_recursive fs d 0o755).1 ≠ 0
      then (-1, (create_directory_recursive fs d 0o755).2)
      else sbdGo (create_directory_recursive fs d 0o755).2 ds := rfl

/-- The directory loop never removes or rewrites an existing binding. -/
theorem sbdGo_preserve :
    ∀ (ds : List (List String)) (fs : FS) {q : List String} {e : Entry},
      FS.lookup fs q = some e → FS.lookup (sbdGo fs ds).2 q = some e := by
  intro ds
  induction ds with
  | nil => intro fs q e h; exact h
  | cons d dsx ih =>
      intro fs q e h
      rw [sbdGo_cons]
      by_cases h0 : (create_directory_recursive fs d 0o755).1 ≠ 0
      · rw [if_pos h0]
        exact create_directory_recursive_preserve h
      · rw [if_neg h0]
        exact ih _ (create_directory_recursive_preserve h)

/-- After a successful directory loop, every nonempty listed path is bound:
to its original entry if it existed, and to a fresh 0755 directory if not. -/
theorem sbdGo_ok_target :
    ∀ (ds : List (List String)) (fs fs2 : FS), sbdGo fs ds = (0, fs2) →
      ∀ d ∈ ds, d ≠ [] →
      ∃ e, FS.lookup fs2 d = some e ∧
        (∀ e0, FS.lookup fs d = some e0 → e = e0) ∧
        (FS.lookup fs d = none → e = Entry.dir 0o755) := by
  intro ds
  induction ds with
  | nil => intro fs fs2 _ d hd; exact absurd hd (by simp)
  | cons d0 dsx ih =>
      intro fs fs2 h d hd hdne
      rw [sbdGo_cons] at h
      by_cases h0 : (create_directory_recursive fs d0 0o755).1 ≠ 0
      · rw [if_pos h0] at h
        have h3 : (-1 : Int) = 0 := congrArg Prod.fst h
        exact absurd h3 (by decide)
      · rw [if_neg h0] at h
        have hfs2 : (sbdGo (create_directory_recursive fs d0 0o755).2 dsx).2 = fs2 :=
          congrArg Prod.snd h
        rcases List.mem_cons.mp hd with hd0 | hdm
        · subst hd0
          cases hl : FS.lookup fs d with
          | some e0 =>
              have h1 : FS.lookup (create_directory_recursive fs d 0o755).2 d = some e0 :=
                create_directory_recursive_preserve hl
              refine ⟨e0, ?_, ?_, ?_⟩
              · rw [← hfs2]; exact sbdGo_preserve dsx _ h1
              · intro e0' he'
                exact Option.some.inj he'
              · intro hnone
                exact absurd hnone (by simp)
          | none =>
              have h01 : (create_directory_recursive fs d 0o755).1 = 0 := not_not.mp h0
              have hcr : create_directory_recursive fs d 0o755 =
                  (0, (create_directory_recursive fs d 0o755).2) := by
                rw [← h01]
              have h1 := cdrGo_ok_new_target 0o755 d fs []
                (create_directory_recursive fs d 0o755).2 hcr hdne
                (by rw [List.nil_append]; exact hl)
              rw [List.nil_append] at h1
              refine ⟨Entry.dir 0o755, ?_, ?_, fun _ => rfl⟩
              · rw [← hfs2]; exact sbdGo_preserve dsx _ h1
              · intro e0 he'
                exact absurd he' (by simp)
        · obtain ⟨e, he1, he2, he3⟩ :=
            ih (create_directory_recursive fs d0 0o755).2 fs2 h d hdm hdne
          cases hl : FS.lookup fs d with
          | some e0 =>
              have h1 : FS.lookup (create_directory_recursive fs d0 0o755).2 d = some e0 :=
                create_directory_recursive_preserve hl
              refine ⟨e, he1, ?_, ?_⟩
              · intro e0' he'
                rw [he2 e0 h1]
                exact Option.some.inj he'
              · intro hnone
                exact absurd hnone (by simp)
          | none =>
              rcases cdrGo_new 0o755 d0 fs [] hl with hmid | hmid
              · refine ⟨e, he1, ?_, fun _ => he3 hmid⟩
                intro e0 he'
                exact absurd he' (by simp)
              · refine ⟨e, he1, ?_, fun _ => he2 _ hmid⟩
                intro e0 he'
                exact absurd he' (by simp)

/-- Unfolding equation for `setup_bootstrap_directories`. -/
theorem setup_bootstrap_directories_eq (fs : FS) :
    setup_bootstrap_directories fs =
      if (sbdGo fs directoriesTable).1 ≠ 0
      then (-1, (sbdGo fs directoriesTable).2)
      else (0, (set_file_permissions
          ((set_file_permissions (sbdGo fs directoriesTable).2 sshHomeDirPath 0o700).2)
          varEmptyPath 0o755).2) := rfl

/-! ## Claim C6 -/

/-- Claim C6, amended.  When `home/.ssh` and `var/empty` are not occupied
by symbolic links (each is absent, a directory, or a regular file), after
`setup_bootstrap_directories` returns success the entry at `home/.ssh`
carries mode exactly 0700 and the entry at `var/empty` mode exactly 0755.
(The unamended claim fails when a pre-existing symlink occupies
`home/.ssh`: `mkdir` reports `EEXIST`, the `chmod` result is ignored, and
scaffolding still reports success — see the counterexample.) -/
theorem claim_C6_tightened_modes (fs : FS)
    (hS : isSymlinkOpt (FS.lookup fs sshHomeDirPath) = false)
    (hE : isSymlinkOpt (FS.lookup fs varEmptyPath) = false)
    (h : (setup_bootstrap_directories fs).1 = 0) :
    entryMode (FS.lookup (setup_bootstrap_directories fs).2 sshHomeDirPath) = some 0o700 ∧
    entryMode (FS.lookup (setup_bootstrap_directories fs).2 varEmptyPath) = some 0o755 := by
  by_cases h0 : (sbdGo fs directoriesTable).1 ≠ 0
  · rw [setup_bootstrap_directories_eq, if_pos h0] at h
    exact absurd h (show ¬((-1 : Int) = 0) by decide)
  · have hsb : sbdGo fs directoriesTable = (0, (sbdGo fs directoriesTable).2) := by
      have h01 : (sbdGo fs directoriesTable).1 = 0 := not_not.mp h0
      rw [← h01]
    obtain ⟨eS, hS1, hS2, hS3⟩ := sbdGo_ok_target directoriesTable fs
      (sbdGo fs directoriesTable).2 hsb sshHomeDirPath (by decide) (by decide)
    obtain ⟨eE, hE1, hE2, hE3⟩ := sbdGo_ok_target directoriesTable fs
      (sbdGo fs directoriesTable).2 hsb varEmptyPath (by decide) (by decide)
    have hfinal : (setup_bootstrap_directories fs).2 =
        (set_file_permissions
          ((set_file_permissions (sbdGo fs directoriesTable).2 sshHomeDirPath 0o700).2)
          varEmptyPath 0o755).2 := by
      rw [setup_bootstrap_directories_eq, if_neg h0]
    have hSok : (∃ m, eS = Entry.dir m) ∨ (∃ m c, eS = Entry.file m c) := by
      cases hl : FS.lookup fs sshHomeDirPath with
      | none => exact Or.inl ⟨0o755, hS3 hl⟩
      | some e0 =>
          have he := hS2 e0 hl
          cases e0 with
          | dir m => exact Or.inl ⟨m, he⟩
          | file m c => exact Or.inr ⟨m, c, he⟩
          | symlink t => rw [hl] at hS; simp [isSymlinkOpt] at hS
    have hEok : (∃ m, eE = Entry.dir m) ∨ (∃ m c, eE = Entry.file m c) := by
      cases hl : FS.lookup fs varEmptyPath with
      | none => exact Or.inl ⟨0o755, hE3 hl⟩
      | some e0 =>
          have he := hE2 e0 hl
          cases e0 with
          | dir m => exact Or.inl ⟨m, he⟩
          | file m c => exact Or.inr ⟨m, c, he⟩
          | symlink t => rw [hl] at hE; simp [isSymlinkOpt] at hE
    have hnePair : varEmptyPath ≠ sshHomeDirPath := by decide
    set A := (sbdGo fs directoriesTable).2 with hA
    have hstep1 : ∃ eS2, (set_file_permissions A sshHomeDirPath 0o700).2 =
        FS.set A sshHomeDirPath eS2 ∧ entryMode (some eS2) = some 0o700 := by
      rcases hSok with ⟨m, hm⟩ | ⟨m, c, hm⟩
      · rw [hm] at hS1
        exact ⟨Entry.dir 0o700, congrArg Prod.snd (chmodOp_dir 0o700 hS1), rfl⟩
      · rw [hm] at hS1
        exact ⟨Entry.file 0o700 c, congrArg Prod.snd (chmodOp_file 0o700 hS1), rfl⟩
    obtain ⟨eS2, hB, hBmode⟩ := hstep1
    have hBssh : FS.lookup (set_file_permissions A sshHomeDirPath 0o700).2
        sshHomeDirPath = some eS2 := by
      rw [hB, FS.lookup_set_self]
    have hBempty : FS.lookup (set_file_permissions A sshHomeDirPath 0o700).2
        varEmptyPath = some eE := by
      rw [hB, FS.lookup_set_ne _ _ _ _ hnePair]
      exact hE1
    have hstep2 : ∃ eE2, (set_file_permissions
        ((set_file_permissions A sshHomeDirPath 0o700).2) varEmptyPath 0o755).2 =
        FS.set ((set_file_permissions A sshHomeDirPath 0o700).2) varEmptyPath eE2 ∧
        entryMode (some eE2) = some 0o755 := by
      rcases hEok with ⟨m, hm⟩ | ⟨m, c, hm⟩
      · rw [hm] at hBempty
        exact ⟨Entry.dir 0o755, congrArg Prod.snd (chmodOp_dir 0o755 hBempty), rfl⟩
      · rw [hm] at hBempty
        exact ⟨Entry.file 0o755 c, congrArg Prod.snd (chmodOp_file 0o755 hBempty), rfl⟩
    obtain ⟨eE2, hC, hCmode⟩ := hstep2
    constructor
    · rw [hfinal, hC, FS.lookup_set_ne _ _ _ _ (Ne.symm hnePair), hBssh]
      exact hBmode
    · rw [hfinal, hC, FS.lookup_set_self]
      exact hCmode

/-- Witness for Claim C6: scaffolding from the empty filesystem. -/
theorem claim_C6_witness :
    entryMode (FS.lookup (setup_bootstrap_directories []).2 sshHomeDirPath) =
      some 0o700 ∧
    entryMode (FS.lookup (setup_bootstrap_directories []).2 varEmptyPath) =
      some 0o755 :=
  claim_C6_tightened_modes [] (by decide) (by decide) (by decide)

/-- A dangling symbolic link occupying `home/.ssh`. -/
def fsSshLink : FS := [(sshHomeDirPath, Entry.symlink ("nosuch"))]

/-- Counterexample to Claim C6 as stated: with a dangling symlink at
`home/.ssh`, `setup_bootstrap_directories` still returns success (its
`mkdir` sees `EEXIST` and the failed `chmod` result is ignored), yet
`home/.ssh` is left a symlink — there is no directory with mode 0700. -/
theorem claim_C6_counterexample :
    (setup_bootstrap_directories fsSshLink).1 = 0 ∧
    FS.lookup (setup_bootstrap_directories fsSshLink).2 sshHomeDirPath =
      some (Entry.symlink ("nosuch")) := by
  decide

/-! ## Claim C8 -/

/-- The content recorded for the entry, when it is a regular file. -/
def entryContent : Option Entry → Option String
  | some (Entry.file _ c) => some c
  | _ => none

/-- Split a character list into newline-separated lines. -/
def linesOfAux : List Char → List Char → List String
  | [], acc => [String.mk acc.reverse]
  | c :: rest, acc =>
      if c = ('\n') then String.mk acc.reverse :: linesOfAux rest []
      else linesOfAux rest (c :: acc)

/-- The newline-separated lines of a string. -/
def linesOf (s : String) : List String := linesOfAux s.data []

/-- The first string ends with the second. -/
def strEndsWith (s t : String) : Bool := List.isSuffixOf t.data s.data

theorem fopenW_truncate {fs : FS} {p : List String} {m : Nat} {c : String}
    (mode : Nat) (content : String) (h : FS.lookup fs p = some (Entry.file m c)) :
    fopenW fs p mode content = some (FS.set fs p (Entry.file m content)) := by
  unfold fopenW
  rw [show resolvePath fs 40 p = some (p, Entry.file m c) by rw [resolvePath, h]]

theorem fopenW_create {fs : FS} {p : List String} {mP : Nat}
    (mode : Nat) (content : String) (h : FS.lookup fs p = none)
    (hp : FS.lookup fs p.dropLast = some (Entry.dir mP)) :
    fopenW fs p mode content = some (FS.set fs p (Entry.file mode content)) := by
  unfold fopenW
  rw [show resolvePath fs 40 p = none by rw [resolvePath, h], h, hp]

theorem writeOrSkip_some (fs f : FS) : writeOrSkip fs (some f) = f := rfl

/-- Unfolding equation for `setup_configuration_files`. -/
theorem setup_configuration_files_eq (fs : FS) :
    setup_configuration_files fs =
      (0, writeOrSkip (writeOrSkip fs (fopenW fs profilePath 0o644 profileContent))
            (fopenW (writeOrSkip fs (fopenW fs profilePath 0o644 profileContent))
              sshConfigPath 0o644 sshConfigContent)) := rfl

/-- Claim C8: when `etc` and `etc/ssh` are directories and the two output
paths are absent or regular files (so both opens succeed), configuration
emission overwrites both files unconditionally: afterwards `etc/profile`
holds exactly the profile text (whose lines export `PATH` with the
prefix's `bin` prepended, `HOME`, `TMPDIR`, `SHELL`, `TERM`, `PREFIX`,
`LANG` and `LC_ALL`, and which ends with a `cd` to the home directory)
and `etc/ssh/ssh_config` holds exactly the SSH client text (whose lines
include `Port 22`, `Protocol 2` and the two `IdentityFile` directives for
the RSA and Ed25519 keys under the home `.ssh` directory). -/
theorem claim_C8_configuration_files (fs : FS)
    (h1 : isDirOpt (FS.lookup fs (usrPath ++ ["etc"])) = true)
    (h2 : isAbsentOrFileOpt (FS.lookup fs profilePath) = true)
    (h3 : isDirOpt (FS.lookup fs (usrPath ++ ["etc", "ssh"])) = true)
    (h4 : isAbsentOrFileOpt (FS.lookup fs sshConfigPath) = true) :
    ((setup_configuration_files fs).1 = 0 ∧
     entryContent (FS.lookup (setup_configuration_files fs).2 profilePath) =
       some profileContent ∧
     entryContent (FS.lookup (setup_configuration_files fs).2 sshConfigPath) =
       some sshConfigContent) ∧
    ((("export PATH=\"") ++ BOOTSTRAP_PREFIX_DIR ++ ("/bin:$PATH\"")) ∈
       linesOf profileContent ∧
     (("export HOME=\"") ++ BOOTSTRAP_HOME_DIR ++ ("\"")) ∈ linesOf profileContent ∧
     (("export TMPDIR=\"") ++ BOOTSTRAP_TMP_DIR ++ ("\"")) ∈ linesOf profileContent ∧
     (("export SHELL=\"") ++ BOOTSTRAP_PREFIX_DIR ++ ("/bin/sh\"")) ∈
       linesOf profileContent ∧
     ("export TERM=\"xterm-256color\"") ∈ linesOf profileContent ∧
     (("export PREFIX=\"") ++ BOOTSTRAP_PREFIX_DIR ++ ("\"")) ∈ linesOf profileContent ∧
     ("export LANG=\"en_US.UTF-8\"") ∈ linesOf profileContent ∧
     ("export LC_ALL=\"en_US.UTF-8\"") ∈ linesOf profileContent ∧
     strEndsWith profileContent (("cd \"$HOME\"\n")) = true) ∧
    (("    Port 22") ∈ linesOf sshConfigContent ∧
     ("    Protocol 2") ∈ linesOf sshConfigContent ∧
     ("    IdentityFile ~/.ssh/id_rsa") ∈ linesOf sshConfigContent ∧
     ("    IdentityFile ~/.ssh/id_ed25519") ∈ linesOf sshConfigContent) := by
  have hdropP : profilePath.dropLast = usrPath ++ ["etc"] := by decide
  have hdropS : sshConfigPath.dropLast = usrPath ++ ["etc", "ssh"] := by decide
  have hnePS : sshConfigPath ≠ profilePath := by decide
  have hneEtcSshProfile : usrPath ++ ["etc", "ssh"] ≠ profilePath := by decide
  obtain ⟨mEtc, hEtc⟩ : ∃ m, FS.lookup fs (usrPath ++ ["etc"]) = some (Entry.dir m) := by
    cases hl : FS.lookup fs (usrPath ++ ["etc"]) with
    | none => rw [hl] at h1; simp [isDirOpt] at h1
    | some e =>
        cases e with
        | dir m => exact ⟨m, rfl⟩
        | file m c => rw [hl] at h1; simp [isDirOpt] at h1
        | symlink t => rw [hl] at h1; simp [isDirOpt] at h1
  obtain ⟨mSsh, hSshDir⟩ : ∃ m, FS.lookup fs (usrPath ++ ["etc", "ssh"]) =
      some (Entry.dir m) := by
    cases hl : FS.lookup fs (usrPath ++ ["etc", "ssh"]) with
    | none => rw [hl] at h3; simp [isDirOpt] at h3
    | some e =>
        cases e with
        | dir m => exact ⟨m, rfl⟩
        | file m c => rw [hl] at h3; simp [isDirOpt] at h3
        | symlink t => rw [hl] at h3; simp [isDirOpt] at h3
  obtain ⟨mp, hopen1⟩ : ∃ m, fopenW fs profilePath 0o644 profileContent =
      some (FS.set fs profilePath (Entry.file m profileContent)) := by
    cases hl : FS.lookup fs profilePath with
    | none =>
        exact ⟨0o644, fopenW_create 0o644 profileContent hl (by rw [hdropP]; exact hEtc)⟩
    | some e =>
        cases e with
        | dir m => rw [hl] at h2; simp [isAbsentOrFileOpt] at h2
        | file m c => exact ⟨m, fopenW_truncate 0o644 profileContent hl⟩
        | symlink t => rw [hl] at h2; simp [isAbsentOrFileOpt] at h2
  set fs1 := FS.set fs profilePath (Entry.file mp profileContent) with hfs1
  have hw1 : writeOrSkip fs (fopenW fs profilePath 0o644 profileContent) = fs1 := by
    rw [hopen1]; rfl
  have hlp1 : FS.lookup fs1 profilePath = some (Entry.file mp profileContent) :=
    FS.lookup_set_self fs profilePath _
  have hlsc : FS.lookup fs1 sshConfigPath = FS.lookup fs sshConfigPath :=
    FS.lookup_set_ne fs profilePath sshConfigPath _ hnePS
  have hlsd : FS.lookup fs1 (usrPath ++ ["etc", "ssh"]) = some (Entry.dir mSsh) := by
    rw [FS.lookup_set_ne fs profilePath _ _ hneEtcSshProfile]
    exact hSshDir
  obtain ⟨ms, hopen2⟩ : ∃ m, fopenW fs1 sshConfigPath 0o644 sshConfigContent =
      some (FS.set fs1 sshConfigPath (Entry.file m sshConfigContent)) := by
    cases hl : FS.lookup fs sshConfigPath with
    | none =>
        refine ⟨0o644, @fopenW_create fs1 sshConfigPath mSsh 0o644 sshConfigContent
          ?_ ?_⟩
        · rw [hlsc]; exact hl
        · rw [hdropS]; exact hlsd
    | some e =>
        cases e with
        | dir m => rw [hl] at h4; simp [isAbsentOrFileOpt] at h4
        | file m c =>
            exact ⟨m, fopenW_truncate 0o644 sshConfigContent
              (show FS.lookup fs1 sshConfigPath = some (Entry.file m c) by
                rw [hlsc]; exact hl)⟩
        | symlink t => rw [hl] at h4; simp [isAbsentOrFileOpt] at h4
  refine ⟨⟨rfl, ?_, ?_⟩, by decide, by decide⟩
  · rw [setup_configuration_files_eq, hw1]
    show entryContent (FS.lookup (writeOrSkip fs1
      (fopenW fs1 sshConfigPath 0o644 sshConfigContent)) profilePath) = some profileContent
    rw [hopen2, writeOrSkip_some,
      FS.lookup_set_ne fs1 sshConfigPath profilePath _ (Ne.symm hnePS), hlp1]
    rfl
  · rw [setup_configuration_files_eq, hw1]
    show entryContent (FS.lookup (writeOrSkip fs1
      (fopenW fs1 sshConfigPath 0o644 sshConfigContent)) sshConfigPath) =
      some sshConfigContent
    rw [hopen2, writeOrSkip_some, FS.lookup_set_self]
    rfl

/-- The two configuration directories, ready for emission. -/
def fsEtcDirs : FS :=
  [(usrPath ++ ["etc"], Entry.dir 0o755), (usrPath ++ ["etc", "ssh"], Entry.dir 0o755)]

/-- Witness for Claim C8: emission into existing `etc` and `etc/ssh`
directories writes the profile text. -/
theorem claim_C8_witness :
    entryContent (FS.lookup (setup_configuration_files fsEtcDirs).2 profilePath) =
      some profileContent :=
  (claim_C8_configuration_files fsEtcDirs (by decide) (by decide) (by decide)
    (by decide)).1.2.1

/-! ## Claim C9 -/

theorem setup_binary_permissions_fst (fs : FS) :
    (setup_binary_permissions fs).1 = 0 := rfl

theorem setup_configuration_files_fst (fs : FS) :
    (setup_configuration_files fs).1 = 0 := rfl

/-- Claim C9: permission normalization and configuration emission return 0
for every filesystem state (per-item chmod failures and config-file open
failures never change the return value), so the orchestrator's abort
branches for those two steps are unreachable: `installBootstrap` is
exactly "run the pipeline up to the symlink farm; on abort return that
outcome, and once the symlink farm has succeeded always finish with
`JNI_TRUE` after the remaining (infallible) configuration step". -/
theorem claim_C9_no_late_failure :
    (∀ fs : FS, (setup_binary_permissions fs).1 = 0) ∧
    (∀ fs : FS, (setup_configuration_files fs).1 = 0) ∧
    (∀ (env : Env) (st : St),
      installBootstrap env st =
        match installUpToSymlinks env st with
        | Except.error out => out
        | Except.ok st2 =>
            (true, { st2 with fs := (setup_configuration_files st2.fs).2 })) := by
  refine ⟨fun _ => rfl, fun _ => rfl, ?_⟩
  intro env st
  have hzero : ¬((0 : Int) ≠ 0) := by decide
  simp only [installBootstrap, installUpToSymlinks]
  cases hb : is_bootstrap_installed st.fs with
  | true => rfl
  | false =>
      simp only [Bool.false_eq_true, if_false]
      by_cases harch : env.arch = ("unknown")
      · rw [if_pos harch, if_pos harch]
      · rw [if_neg harch, if_neg harch]
        cases ham : env.assetManagerOk with
        | false => rfl
        | true =>
            simp only [Bool.true_eq_false, if_false]
            set E1 := setup_bootstrap_directories st.fs with hE1
            by_cases h1 : E1.1 ≠ 0
            · rw [if_pos h1, if_pos h1]
            · rw [if_neg h1, if_neg h1]
              set E2 := extract_asset_file env { st with fs := E1.2 }
                (("xport-bootstrap-") ++ env.arch ++ (".zip")) tmpZipPath with hE2
              by_cases h2 : E2.1 ≠ 0
              · rw [if_pos h2, if_pos h2]
              · rw [if_neg h2, if_neg h2]
                set E3 := extract_bootstrap_zip env E2.2.fs tmpZipPath usrPath with hE3
                by_cases h3 : E3.1 ≠ 0
                · rw [if_pos h3, if_pos h3]
                · rw [if_neg h3, if_neg h3]
                  rw [setup_binary_permissions_fst, if_neg hzero, if_neg hzero]
                  set E5 := setup_busybox_symlinks
                    (setup_binary_permissions ((unlinkOp E3.2 tmpZipPath).2)).2 with hE5
                  by_cases h5 : E5.1 ≠ 0
                  · rw [if_pos h5, if_pos h5]
                  · rw [if_neg h5, if_neg h5]
                    rw [setup_configuration_files_fst, if_neg hzero]

/-! ## Lemmas about the symlink farm (Claims C5 and C10) -/

/-- The path is a regular file. -/
def isFileOpt : Option Entry → Bool
  | some (Entry.file _ _) => true
  | _ => false

/-- The path is absent, a regular file, or a symlink pointing at the
multi-call binary: the occupancies through which one pass of the symlink
loop is guaranteed to (re)install the farm link. -/
def goodOcc : Option Entry → Bool
  | none => true
  | some (Entry.file _ _) => true
  | some (Entry.symlink t) => if t = ("busybox") then true else false
  | some (Entry.dir _) => false

theorem binPath_dropLast (c : String) : (binPath c).dropLast = binDir :=
  dropLast_append_singleton binDir c

theorem binPath_inj {a b : String} (h : binPath a = binPath b) : a = b :=
  append_singleton_inj h

theorem binDir_ne_binPath (c : String) : binDir ≠ binPath c := by
  intro h
  have h4 := congrArg List.length h
  simp [binPath] at h4

theorem busyboxPath_ne_binPath {c : String} (hc : c ≠ ("busybox")) :
    busyboxPath ≠ binPath c := by
  intro h
  exact hc (binPath_inj h).symm

theorem unlinkOp_snd_lookup_ne (fs : FS) (p q : List String) (hq : q ≠ p) :
    FS.lookup (unlinkOp fs p).2 q = FS.lookup fs q := by
  unfold unlinkOp
  cases hl : FS.lookup fs p with
  | none => rfl
  | some e =>
      cases e with
      | dir m => rfl
      | file m c => exact FS.lookup_eraseKey_ne fs p q hq
      | symlink t => exact FS.lookup_eraseKey_ne fs p q hq

theorem symlinkOp_snd_lookup_ne (fs : FS) (t : String) (p q : List String)
    (hq : q ≠ p) : FS.lookup (symlinkOp fs t p).2 q = FS.lookup fs q := by
  unfold symlinkOp
  cases hl : FS.lookup fs p with
  | some e => rfl
  | none =>
      cases hpar : FS.lookup fs p.dropLast with
      | none => rfl
      | some epar =>
          cases epar with
          | dir m => exact FS.lookup_set_ne fs p q _ hq
          | file m c => rfl
          | symlink s => rfl

/-- One pass of the symlink loop touches no path other than its own
`bin/<name>`. -/
theorem symlinkOne_frame (fs : FS) (c : String) {q : List String}
    (hq : q ≠ binPath c) :
    FS.lookup (symlinkOne fs c) q = FS.lookup fs q := by
  unfold symlinkOne
  cases ha : accessF fs (binPath c) with
  | false =>
      rw [if_neg (by simp)]
      exact symlinkOp_snd_lookup_ne fs _ _ q hq
  | true =>
      rw [if_pos rfl]
      rw [symlinkOp_snd_lookup_ne _ _ _ q hq]
      exact unlinkOp_snd_lookup_ne fs _ q hq

/-- One pass of the symlink loop on a good occupancy (absent, regular
file, or link to the multi-call binary) installs `bin/<name> -> busybox`,
given that `bin` is a directory and the multi-call binary is a regular
file. -/
theorem symlinkOne_good (fs : FS) (c : String) {mB mb : Nat} {sb : String}
    (hB : FS.lookup fs binDir = some (Entry.dir mB))
    (hbbl : FS.lookup fs busyboxPath = some (Entry.file mb sb))
    (hocc : goodOcc (FS.lookup fs (binPath c)) = true)
    (_hc : c ≠ ("busybox")) :
    FS.lookup (symlinkOne fs c) (binPath c) = some (Entry.symlink ("busybox")) := by
  unfold symlinkOne
  cases hl : FS.lookup fs (binPath c) with
  | none =>
      have ha : accessF fs (binPath c) = false := accessF_of_none hl
      rw [ha, if_neg (by simp)]
      unfold symlinkOp
      rw [hl, binPath_dropLast, hB]
      exact FS.lookup_set_self fs _ _
  | some e =>
      cases e with
      | dir m => rw [hl] at hocc; simp [goodOcc] at hocc
      | file m s =>
          have ha : accessF fs (binPath c) = true := accessF_of_file hl
          rw [ha, if_pos rfl]
          have hu : (unlinkOp fs (binPath c)).2 = FS.eraseKey fs (binPath c) := by
            unfold unlinkOp; rw [hl]
          rw [hu]
          unfold symlinkOp
          rw [FS.lookup_eraseKey_self, binPath_dropLast,
            FS.lookup_eraseKey_ne fs (binPath c) binDir (binDir_ne_binPath c), hB]
          exact FS.lookup_set_self _ _ _
      | symlink t =>
          have ht : t = ("busybox") := by
            rw [hl] at hocc
            by_cases h : t = ("busybox")
            · exact h
            · simp [goodOcc, h] at hocc
          subst ht
          have ha : accessF fs (binPath c) = true := by
            apply accessF_symlink_to_file hl
            rw [binPath_dropLast]
            exact hbbl
          rw [ha, if_pos rfl]
          have hu : (unlinkOp fs (binPath c)).2 = FS.eraseKey fs (binPath c) := by
            unfold unlinkOp; rw [hl]
          rw [hu]
          unfold symlinkOp
          rw [FS.lookup_eraseKey_self, binPath_dropLast,
            FS.lookup_eraseKey_ne fs (binPath c) binDir (binDir_ne_binPath c), hB]
          exact FS.lookup_set_self _ _ _

theorem sbsGo_cons (fs : FS) (c : String) (L : List String) :
    sbsGo fs (c :: L) = sbsGo (symlinkOne fs c) L := rfl

/-- The symlink loop touches no path outside the manifest. -/
theorem sbsGo_frame :
    ∀ (L : List String) (fs : FS) (q : List String),
      (∀ c ∈ L, q ≠ binPath c) → FS.lookup (sbsGo fs L) q = FS.lookup fs q := by
  intro L
  induction L with
  | nil => intro fs q _; rfl
  | cons c L' ih =>
      intro fs q h
      rw [sbsGo_cons, ih _ q (fun c' hc' => h c' (List.mem_cons_of_mem c hc'))]
      exact symlinkOne_frame fs c (h c (List.mem_cons_self c L'))

/-- Over distinct manifest names (none of them the multi-call binary's
own name) whose paths are all in good occupancy, the loop binds every
manifest path to a symlink to `busybox`. -/
theorem sbsGo_installs :
    ∀ (L : List String) (fs : FS), L.Nodup → ("busybox") ∉ L →
      (∀ c ∈ L, goodOcc (FS.lookup fs (binPath c)) = true) →
      ∀ {mB mb : Nat} {sb : String},
        FS.lookup fs binDir = some (Entry.dir mB) →
        FS.lookup fs busyboxPath = some (Entry.file mb sb) →
      ∀ c ∈ L, FS.lookup (sbsGo fs L) (binPath c) =
        some (Entry.symlink ("busybox")) := by
  intro L
  induction L with
  | nil => intro fs _ _ _ mB mb sb _ _ c hc; exact absurd hc (by simp)
  | cons c0 L' ih =>
      intro fs hnd hnb hgood mB mb sb hB hbb c hc
      have hcb0 : c0 ≠ ("busybox") := fun h => hnb (h ▸ List.mem_cons_self c0 L')
      have hnb' : ("busybox") ∉ L' := fun h => hnb (List.mem_cons_of_mem c0 h)
      have hnd' : L'.Nodup := (List.nodup_cons.mp hnd).2
      have hc0notin : c0 ∉ L' := (List.nodup_cons.mp hnd).1
      have hB' : FS.lookup (symlinkOne fs c0) binDir = some (Entry.dir mB) := by
        rw [symlinkOne_frame fs c0 (binDir_ne_binPath c0)]; exact hB
      have hbb' : FS.lookup (symlinkOne fs c0) busyboxPath =
          some (Entry.file mb sb) := by
        rw [symlinkOne_frame fs c0 (busyboxPath_ne_binPath hcb0)]; exact hbb
      have hgood' : ∀ c' ∈ L',
          goodOcc (FS.lookup (symlinkOne fs c0) (binPath c')) = true := by
        intro c' hc'
        have hne : binPath c' ≠ binPath c0 := by
          intro h
          rw [binPath_inj h] at hc'
          exact hc0notin hc'
        rw [symlinkOne_frame fs c0 hne]
        exact hgood c' (List.mem_cons_of_mem c0 hc')
      rw [sbsGo_cons]
      rcases List.mem_cons.mp hc with hc0 | hcm
      · subst hc0
        rw [sbsGo_frame L' (symlinkOne fs c) (binPath c) (by
          intro c' hc' h
          rw [← binPath_inj h] at hc'
          exact hc0notin hc')]
        exact symlinkOne_good fs c hB hbb (hgood c (List.mem_cons_self c L')) hcb0
      · exact ih (symlinkOne fs c0) hnd' hnb' hgood' hB' hbb' c hcm

theorem setup_busybox_symlinks_access (fs : FS)
    (h : accessF fs busyboxPath = true) :
    setup_busybox_symlinks fs = (0, sbsGo fs commandsTable) := by
  unfold setup_busybox_symlinks
  rw [h, if_pos rfl]

/-! ## Claim C5 -/

/-- Claim C5, amended.  When `bin` is a directory, the multi-call binary
is a regular file at `bin/busybox`, and every manifest path `bin/<name>`
is either absent or a regular file, then after `setup_busybox_symlinks`
(1) the step reports success, (2) every manifest name is a symlink whose
target (hence target basename) is `busybox` — existing regular files at
those paths having been overwritten, (3) no other path changed, and
(4) re-running the construction reports success again and produces the
same filesystem state (idempotence).  (The unamended claim, quantified
over every prior state, fails when a manifest path is occupied by a
dangling symbolic link: the existence pre-check follows the link, reports
absence, the entry is not removed, and the creation fails with `EEXIST`,
leaving the old link in place — see the counterexample.) -/
theorem claim_C5_symlink_farm (fs : FS)
    (hbin : isDirOpt (FS.lookup fs binDir) = true)
    (hbb : isFileOpt (FS.lookup fs busyboxPath) = true)
    (hocc : ∀ c ∈ commandsTable, isAbsentOrFileOpt (FS.lookup fs (binPath c)) = true) :
    (setup_busybox_symlinks fs).1 = 0 ∧
    (∀ c ∈ commandsTable,
      FS.lookup (setup_busybox_symlinks fs).2 (binPath c) =
        some (Entry.symlink ("busybox"))) ∧
    (∀ q, (∀ c ∈ commandsTable, q ≠ binPath c) →
      FS.lookup (setup_busybox_symlinks fs).2 q = FS.lookup fs q) ∧
    (setup_busybox_symlinks (setup_busybox_symlinks fs).2).1 = 0 ∧
    (∀ q, FS.lookup (setup_busybox_symlinks (setup_busybox_symlinks fs).2).2 q =
      FS.lookup (setup_busybox_symlinks fs).2 q) := by
  obtain ⟨mB, hB⟩ : ∃ m, FS.lookup fs binDir = some (Entry.dir m) := by
    cases hl : FS.lookup fs binDir with
    | none => rw [hl] at hbin; simp [isDirOpt] at hbin
    | some e =>
        cases e with
        | dir m => exact ⟨m, rfl⟩
        | file m c => rw [hl] at hbin; simp [isDirOpt] at hbin
        | symlink t => rw [hl] at hbin; simp [isDirOpt] at hbin
  obtain ⟨mb, sb, hbbl⟩ : ∃ m s, FS.lookup fs busyboxPath = some (Entry.file m s) := by
    cases hl : FS.lookup fs busyboxPath with
    | none => rw [hl] at hbb; simp [isFileOpt] at hbb
    | some e =>
        cases e with
        | dir m => rw [hl] at hbb; simp [isFileOpt] at hbb
        | file m c => exact ⟨m, c, rfl⟩
        | symlink t => rw [hl] at hbb; simp [isFileOpt] at hbb
  have heq : setup_busybox_symlinks fs = (0, sbsGo fs commandsTable) :=
    setup_busybox_symlinks_access fs (accessF_of_file hbbl)
  have hnd : commandsTable.Nodup := by decide
  have hnb : ("busybox") ∉ commandsTable := by decide
  have hgood : ∀ c ∈ commandsTable, goodOcc (FS.lookup fs (binPath c)) = true := by
    intro c hc
    have h1 := hocc c hc
    cases hl : FS.lookup fs (binPath c) with
    | none => rfl
    | some e =>
        cases e with
        | dir m => rw [hl] at h1; simp [isAbsentOrFileOpt] at h1
        | file m cc => rfl
        | symlink t => rw [hl] at h1; simp [isAbsentOrFileOpt] at h1
  have hinst := sbsGo_installs commandsTable fs hnd hnb hgood hB hbbl
  have hB2 : FS.lookup (sbsGo fs commandsTable) binDir = some (Entry.dir mB) := by
    rw [sbsGo_frame commandsTable fs binDir (fun c _ => binDir_ne_binPath c)]
    exact hB
  have hbb2 : FS.lookup (sbsGo fs commandsTable) busyboxPath =
      some (Entry.file mb sb) := by
    rw [sbsGo_frame commandsTable fs busyboxPath
      (fun c hcm => busyboxPath_ne_binPath (fun he => hnb (he ▸ hcm)))]
    exact hbbl
  have hgood2 : ∀ c ∈ commandsTable,
      goodOcc (FS.lookup (sbsGo fs commandsTable) (binPath c)) = true := by
    intro c hc
    rw [hinst c hc]
    rfl
  have heq2 : setup_busybox_symlinks (sbsGo fs commandsTable) =
      (0, sbsGo (sbsGo fs commandsTable) commandsTable) :=
    setup_busybox_symlinks_access _ (accessF_of_file hbb2)
  have hinst2 := sbsGo_installs commandsTable (sbsGo fs commandsTable)
    hnd hnb hgood2 hB2 hbb2
  have hsnd : (setup_busybox_symlinks fs).2 = sbsGo fs commandsTable := by
    rw [heq]
  have hfst : (setup_busybox_symlinks fs).1 = 0 := by rw [heq]
  have hsnd2 : (setup_busybox_symlinks (sbsGo fs commandsTable)).2 =
      sbsGo (sbsGo fs commandsTable) commandsTable := by rw [heq2]
  have hfst2 : (setup_busybox_symlinks (sbsGo fs commandsTable)).1 = 0 := by
    rw [heq2]
  refine ⟨hfst, ?_, ?_, ?_, ?_⟩
  · intro c hc
    rw [hsnd]
    exact hinst c hc
  · intro q hq
    rw [hsnd]
    exact sbsGo_frame commandsTable fs q hq
  · rw [hsnd]
    exact hfst2
  · intro q
    rw [hsnd, hsnd2]
    by_cases hq : ∃ c ∈ commandsTable, q = binPath c
    · obtain ⟨c, hcm, hqe⟩ := hq
      rw [hqe, hinst2 c hcm, hinst c hcm]
    · push_neg at hq
      exact sbsGo_frame commandsTable (sbsGo fs commandsTable) q hq

/-- A bin directory holding only the multi-call binary. -/
def fsFarmBase : FS :=
  [(binDir, Entry.dir 0o755), (busyboxPath, Entry.file 0o755 ("mc"))]

/-- Witness for Claim C5: from a farm-ready filesystem, `bin/sh` ends as
a symlink to `busybox`. -/
theorem claim_C5_witness :
    FS.lookup (setup_busybox_symlinks fsFarmBase).2 (binPath ("sh")) =
      some (Entry.symlink ("busybox")) :=
  (claim_C5_symlink_farm fsFarmBase (by decide) (by decide) (by decide)).2.1
    ("sh") (by decide)

/-- A farm-ready filesystem with a dangling symlink at `bin/realpath`. -/
def fsFarmDangling : FS :=
  (binPath ("realpath"), Entry.symlink ("nosuch")) :: fsFarmBase

/-- Counterexample to Claim C5 as stated: with the multi-call binary
present but `bin/realpath` occupied by a dangling symlink, the farm step
reports success yet `bin/realpath` is neither overwritten nor a symlink
to `busybox` — it still points at `nosuch`. -/
theorem claim_C5_counterexample :
    isFileOpt (FS.lookup fsFarmDangling busyboxPath) = true ∧
    (setup_busybox_symlinks fsFarmDangling).1 = 0 ∧
    FS.lookup (setup_busybox_symlinks fsFarmDangling).2 (binPath ("realpath")) =
      some (Entry.symlink ("nosuch")) := by
  decide

/-! ## Claim C10 -/

/-- A dangling link whose target stays absent makes its own loop pass a
no-op: the existence check follows the link and fails, so nothing is
unlinked, and the creation fails with `EEXIST`. -/
theorem symlinkOne_noop_of_dangling (fs : FS) (c t : String)
    (hl : FS.lookup fs (binPath c) = some (Entry.symlink t))
    (hd : FS.lookup fs (binPath t) = none) :
    symlinkOne fs c = fs := by
  have ha : accessF fs (binPath c) = false := by
    apply accessF_symlink_dangling hl
    rw [binPath_dropLast]
    exact hd
  unfold symlinkOne
  rw [ha, if_neg (by simp)]
  unfold symlinkOp
  rw [hl]

/-- Through the whole loop, a dangling link at `bin/<c>` whose target name
is outside the manifest is left untouched. -/
theorem sbsGo_dangling :
    ∀ (L : List String) (fs : FS) (c t : String), c ∈ L → L.Nodup → t ∉ L →
      FS.lookup fs (binPath c) = some (Entry.symlink t) →
      FS.lookup fs (binPath t) = none →
      FS.lookup (sbsGo fs L) (binPath c) = some (Entry.symlink t) := by
  intro L
  induction L with
  | nil => intro fs c t hc; exact absurd hc (by simp)
  | cons c0 L' ih =>
      intro fs c t hc hnd htn hl hd
      rcases List.mem_cons.mp hc with hc0 | hcm
      · subst hc0
        rw [sbsGo_cons, symlinkOne_noop_of_dangling fs c t hl hd]
        rw [sbsGo_frame L' fs (binPath c) (by
          intro c' hc' h
          rw [← binPath_inj h] at hc'
          exact (List.nodup_cons.mp hnd).1 hc')]
        exact hl
      · have hcc0 : c ≠ c0 := by
          intro h
          rw [h] at hcm
          exact (List.nodup_cons.mp hnd).1 hcm
        have htc0 : t ≠ c0 := by
          intro h
          exact htn (h ▸ List.mem_cons_self c0 L')
        rw [sbsGo_cons]
        refine ih (symlinkOne fs c0) c t hcm (List.nodup_cons.mp hnd).2
          (fun h => htn (List.mem_cons_of_mem c0 h)) ?_ ?_
        · rw [symlinkOne_frame fs c0 (fun h => hcc0 (binPath_inj h))]
          exact hl
        · rw [symlinkOne_frame fs c0 (fun h => htc0 (binPath_inj h))]
          exact hd

/-- Claim C10, amended.  With the multi-call binary present as a regular
file, if `bin/<name>` for a manifest command is a symlink whose target
name is not itself a manifest command and whose target path `bin/<target>`
does not exist (a dangling symlink that stays dangling), then the
pre-create existence check follows the symlink and reports absence, so
the occupying symlink is not removed, the subsequent symlink creation
fails with `EEXIST`, the dangling entry is left in place unchanged, and
the step still returns success.  (The unamended claim fails when the
dangling target is itself a manifest name processed earlier in the loop:
by the time the entry is processed its target has come into existence, the
existence check succeeds and the entry is overwritten — see the
counterexample.) -/
theorem claim_C10_dangling_symlink (fs : FS) (c t : String)
    (hbb : isFileOpt (FS.lookup fs busyboxPath) = true)
    (hcmem : c ∈ commandsTable)
    (hlink : FS.lookup fs (binPath c) = some (Entry.symlink t))
    (htn : t ∉ commandsTable)
    (hdangle : FS.lookup fs (binPath t) = none) :
    accessF fs (binPath c) = false ∧
    (setup_busybox_symlinks fs).1 = 0 ∧
    FS.lookup (setup_busybox_symlinks fs).2 (binPath c) = some (Entry.symlink t) := by
  obtain ⟨mb, sb, hbbl⟩ : ∃ m s, FS.lookup fs busyboxPath = some (Entry.file m s) := by
    cases hl : FS.lookup fs busyboxPath with
    | none => rw [hl] at hbb; simp [isFileOpt] at hbb
    | some e =>
        cases e with
        | dir m => rw [hl] at hbb; simp [isFileOpt] at hbb
        | file m cc => exact ⟨m, cc, rfl⟩
        | symlink tt => rw [hl] at hbb; simp [isFileOpt] at hbb
  have heq : setup_busybox_symlinks fs = (0, sbsGo fs commandsTable) :=
    setup_busybox_symlinks_access fs (accessF_of_file hbbl)
  have hsnd : (setup_busybox_symlinks fs).2 = sbsGo fs commandsTable := by
    rw [heq]
  have hfst : (setup_busybox_symlinks fs).1 = 0 := by rw [heq]
  have haccc : accessF fs (binPath c) = false := by
    apply accessF_symlink_dangling hlink
    rw [binPath_dropLast]
    exact hdangle
  refine ⟨haccc, hfst, ?_⟩
  rw [hsnd]
  exact sbsGo_dangling commandsTable fs c t hcmem (by decide) htn hlink hdangle

/-- A farm-ready filesystem with a dangling symlink at `bin/wget` whose
target is not a manifest name. -/
def fsFarmDangling2 : FS :=
  (binPath ("wget"), Entry.symlink ("nope")) :: fsFarmBase

/-- Witness for Claim C10: the dangling `bin/wget -> nope` survives the
farm construction untouched while the step succeeds. -/
theorem claim_C10_witness :
    accessF fsFarmDangling2 (binPath ("wget")) = false ∧
    (setup_busybox_symlinks fsFarmDangling2).1 = 0 ∧
    FS.lookup (setup_busybox_symlinks fsFarmDangling2).2 (binPath ("wget")) =
      some (Entry.symlink ("nope")) :=
  claim_C10_dangling_symlink fsFarmDangling2 ("wget") ("nope") (by decide)
    (by decide) (by decide) (by decide) (by decide)

/-- A farm-ready filesystem with a dangling symlink at `bin/realpath`
whose target `sh` is a manifest name processed earlier in the loop. -/
def fsFarmResurrect : FS :=
  (binPath ("realpath"), Entry.symlink ("sh")) :: fsFarmBase

/-- Counterexample to Claim C10 as stated: `bin/realpath -> sh` is
dangling before construction (`bin/sh` does not exist), yet the entry is
not left in place: by the time `realpath` is processed, `bin/sh` has been
created, the existence check succeeds, and the entry is replaced by a
symlink to `busybox`. -/
theorem claim_C10_counterexample :
    accessF fsFarmResurrect (binPath ("realpath")) = false ∧
    (setup_busybox_symlinks fsFarmResurrect).1 = 0 ∧
    FS.lookup (setup_busybox_symlinks fsFarmResurrect).2 (binPath ("realpath")) =
      some (Entry.symlink ("busybox")) := by
  decide
